import Mathlib


/-!
Verification of the consensus-aggregator core of the `clinical` repository
(`critique/analyzers.py`, `CritiqueAnalyzer`, and `orwell_hitchens/analyzers.py`,
`WritingAnalyzer`) against its specification.

The Python code is shallowly embedded:
* JSON values (the results of `json.loads`) are the inductive `JVal`; Python
  `None` and JSON `null` are both `JVal.jnull`.  JSON floats are kept as exact
  decimal scaled integers `jnum m e` (value `m * 10 ^ e`); IEEE-754 rounding of
  float literals and float arithmetic is modelled as exact decimal arithmetic.
* `decimal.Decimal(...).quantize(Decimal('0.1'))` values are represented by
  their number of tenths, an `Int` (`702` stands for `Decimal('70.2')`).  The
  default `decimal` rounding mode `ROUND_HALF_EVEN` is embedded in `rheDiv`.
  The intermediate CPython float division `sum(scores)/len(scores)` is
  modelled as exact rational division; the two agree whenever the quotient is
  exactly representable as a double (in particular for 1, 2 or 4 critics and
  0-100 scores, which covers every concrete input used below).
* Exceptions that can escape a Python function are modelled with
  `Except Unit`; code paths whose exceptions are swallowed by `try/except`
  are total functions returning defaults, exactly as the source does.
* `str.upper` / `str.lower` are modelled on ASCII (the only alphabet the
  rubric vocabulary and the analysed keywords use).
-/


/-- A parsed JSON value / normalized Python object.  `jnum m e` is the
finite float `m * 10 ^ e`; `jnan` and `jinf` are the IEEE specials that
Python's `json.loads` accepts through its `NaN`/`Infinity`/`-Infinity`
literal extension. -/
inductive JVal where
  | jnull
  | jbool (b : Bool)
  | jint (n : Int)
  | jnum (m : Int) (e : Int)
  | jnan
  | jinf (neg : Bool)
  | jstr (s : String)
  | jarr (xs : List JVal)
  | jobj (kvs : List (String × JVal))

/-- Opening brace character, written via its code point. -/
def lbrace : Char := Char.ofNat 123

/-- Closing brace character, written via its code point. -/
def rbrace : Char := Char.ofNat 125

/-- ASCII uppercasing of one character (model of `str.upper` per char). -/
def upChar (c : Char) : Char :=
  if 'a' ≤ c ∧ c ≤ 'z' then Char.ofNat (c.toNat - 32) else c

/-- ASCII lowercasing of one character (model of `str.lower` per char). -/
def lowChar (c : Char) : Char :=
  if 'A' ≤ c ∧ c ≤ 'Z' then Char.ofNat (c.toNat + 32) else c

/-- Model of Python `str.upper` (ASCII fragment). -/
def upStr (s : String) : String := ⟨s.data.map upChar⟩

/-- Model of Python `str.lower` (ASCII fragment). -/
def lowStr (s : String) : String := ⟨s.data.map lowChar⟩

/-- Whether `pre` is a prefix of `l`, by `==` on characters. -/
def listPre : List Char → List Char → Bool
  | [], _ => true
  | _ :: _, [] => false
  | a :: as, b :: bs => a == b && listPre as bs

/-- Whether `n` occurs as a contiguous sublist of `l` (Python `in` on `str`). -/
def subList (n : List Char) : List Char → Bool
  | [] => n.isEmpty
  | c :: cs => listPre n (c :: cs) || subList n cs

/-- Python `needle in hay` for strings. -/
def strIn (needle hay : String) : Bool := subList needle.data hay.data

/-! ### A model of `json.loads`

Recursive-descent JSON reader over the character list, with a fuel argument
so that every function is structurally recursive (fuel is chosen large enough
for every input at the call site in `loads`).  Behaviour follows the strict
JSON accepted by Python's `json.loads`: the four whitespace characters,
double-quoted strings with the standard escapes, integers and
fraction/exponent numbers, `true`/`false`/`null`, arrays and objects.
Like Python's decoder, the `NaN`/`Infinity`/`-Infinity` literal extension
is accepted (as `jnan`/`jinf`).  Divergences of the model, none of which
any claim touches: `\u` surrogate pairs are not combined, and finite float
literals are kept as exact decimals.  Duplicate object keys follow Python
dict semantics: position of the first occurrence, value of the last. -/


/-- JSON whitespace (what `json.loads` skips between tokens). -/
def isJWs (c : Char) : Bool := c == ' ' || c == '\t' || c == '\n' || c == '\r'

/-- Drop leading JSON whitespace. -/
def skipWs : List Char → List Char
  | [] => []
  | c :: cs => if isJWs c then skipWs cs else c :: cs

/-- Decimal digit value of a character, if it is a digit. -/
def digVal (c : Char) : Option Nat :=
  if '0' ≤ c ∧ c ≤ '9' then some (c.toNat - 48) else none

/-- Hexadecimal digit value of a character, if it is a hex digit. -/
def hexVal (c : Char) : Option Nat :=
  if '0' ≤ c ∧ c ≤ '9' then some (c.toNat - 48)
  else if 'a' ≤ c ∧ c ≤ 'f' then some (c.toNat - 87)
  else if 'A' ≤ c ∧ c ≤ 'F' then some (c.toNat - 55)
  else none

/-- Take a maximal run of decimal digits; returns the digits and the rest. -/
def takeDigits : List Char → (List Nat × List Char)
  | [] => ([], [])
  | c :: cs =>
    match digVal c with
    | some d => let (ds, rest) := takeDigits cs; (d :: ds, rest)
    | none => ([], c :: cs)

/-- Combine most-significant-first digits into a natural number. -/
def digitsToNat (ds : List Nat) : Nat := ds.foldl (fun acc d => acc * 10 + d) 0

/-- Read a JSON string body after the opening quote; returns content and rest. -/
def pStrBody : Nat → List Char → Option (List Char × List Char)
  | 0, _ => none
  | _ + 1, [] => none
  | fuel + 1, c :: cs =>
    if c == '"' then some ([], cs)
    else if c == '\\' then
      match cs with
      | [] => none
      | e :: cs2 =>
        let cont (ch : Char) (rest : List Char) : Option (List Char × List Char) :=
          (pStrBody fuel rest).map (fun p => (ch :: p.1, p.2))
        if e == '"' then cont '"' cs2
        else if e == '\\' then cont '\\' cs2
        else if e == '/' then cont '/' cs2
        else if e == 'b' then cont (Char.ofNat 8) cs2
        else if e == 'f' then cont (Char.ofNat 12) cs2
        else if e == 'n' then cont '\n' cs2
        else if e == 'r' then cont '\r' cs2
        else if e == 't' then cont '\t' cs2
        else if e == 'u' then
          match cs2 with
          | h1 :: h2 :: h3 :: h4 :: cs3 =>
            match hexVal h1, hexVal h2, hexVal h3, hexVal h4 with
            | some a, some b, some c1, some d =>
              cont (Char.ofNat (((a * 16 + b) * 16 + c1) * 16 + d)) cs3
            | _, _, _, _ => none
          | _ => none
        else none
    else if c.toNat < 32 then none
    else (pStrBody fuel cs).map (fun p => (c :: p.1, p.2))

/-- Read a JSON number starting at the given characters. -/
def pNumber (cs : List Char) : Option (JVal × List Char) :=
  let (sign, cs1) : Int × List Char :=
    match cs with
    | '-' :: rest => (-1, rest)
    | _ => (1, cs)
  match cs1 with
  | [] => none
  | c :: _ =>
    match digVal c with
    | none => none
    | some _ =>
      let (ids, cs2) := takeDigits cs1
      -- JSON forbids leading zeros: "0" is fine, "0d..." is not.
      if ids.length > 1 ∧ ids.headD 0 = 0 then none
      else
        let ipart : Nat := digitsToNat ids
        let (fds, cs3) : List Nat × List Char :=
          match cs2 with
          | '.' :: rest => takeDigits rest
          | _ => ([], cs2)
        if (match cs2 with | '.' :: _ => fds.isEmpty | _ => False) then none
        else
          let cs4 : List Char := if fds.isEmpty then cs2 else cs3
          let hasFrac : Bool := !fds.isEmpty
          let expRead : Option (Option Int × List Char) :=
            match cs4 with
            | e :: rest =>
              if e == 'e' || e == 'E' then
                let (esign, rest2) : Int × List Char :=
                  match rest with
                  | '+' :: r => (1, r)
                  | '-' :: r => (-1, r)
                  | _ => (1, rest)
                let (eds, rest3) := takeDigits rest2
                if eds.isEmpty then none
                else some (some (esign * (digitsToNat eds : Int)), rest3)
              else some (none, cs4)
            | [] => some (none, cs4)
          match expRead with
          | none => none
          | some (expo, rest) =>
            match hasFrac, expo with
            | false, none => some (.jint (sign * (ipart : Int)), rest)
            | _, _ =>
              let m : Int := sign * ((ipart * 10 ^ fds.length + digitsToNat fds : Nat) : Int)
              some (.jnum m (expo.getD 0 - (fds.length : Int)), rest)

/-- Insert a key/value into an object, Python-dict style: an existing key
keeps its position and takes the new value, a new key goes to the end. -/
def upsert (kvs : List (String × JVal)) (k : String) (v : JVal) : List (String × JVal) :=
  if kvs.any (fun kv => kv.1 == k) then
    kvs.map (fun kv => if kv.1 == k then (kv.1, v) else kv)
  else kvs ++ [(k, v)]

mutual

/-- Read one JSON value. -/
def pVal : Nat → List Char → Option (JVal × List Char)
  | 0, _ => none
  | fuel + 1, cs =>
    match skipWs cs with
    | [] => none
    | c :: rest =>
      if c == '"' then (pStrBody fuel rest).map (fun p => (.jstr ⟨p.1⟩, p.2))
      else if c == lbrace then
        match skipWs rest with
        | c2 :: rest2 =>
          if c2 == rbrace then some (.jobj [], rest2)
          else pMembers fuel [] (c2 :: rest2)
        | [] => none
      else if c == '[' then
        match skipWs rest with
        | c2 :: rest2 =>
          if c2 == ']' then some (.jarr [], rest2)
          else pElems fuel [] (c2 :: rest2)
        | [] => none
      else if listPre ['t', 'r', 'u', 'e'] (c :: rest) then
        some (.jbool true, (c :: rest).drop 4)
      else if listPre ['f', 'a', 'l', 's', 'e'] (c :: rest) then
        some (.jbool false, (c :: rest).drop 5)
      else if listPre ['n', 'u', 'l', 'l'] (c :: rest) then
        some (.jnull, (c :: rest).drop 4)
      else if listPre ['N', 'a', 'N'] (c :: rest) then
        some (.jnan, (c :: rest).drop 3)
      else if listPre ['I', 'n', 'f', 'i', 'n', 'i', 't', 'y'] (c :: rest) then
        some (.jinf false, (c :: rest).drop 8)
      else if listPre ['-', 'I', 'n', 'f', 'i', 'n', 'i', 't', 'y'] (c :: rest) then
        some (.jinf true, (c :: rest).drop 9)
      else pNumber (c :: rest)

/-- Read the members of an object (after at least one member is known to
follow); `acc` holds the members read so far. -/
def pMembers : Nat → List (String × JVal) → List Char → Option (JVal × List Char)
  | 0, _, _ => none
  | fuel + 1, acc, cs =>
    match skipWs cs with
    | '"' :: rest =>
      match pStrBody fuel rest with
      | none => none
      | some (key, rest2) =>
        match skipWs rest2 with
        | ':' :: rest3 =>
          match pVal fuel rest3 with
          | none => none
          | some (v, rest4) =>
            let acc2 := upsert acc ⟨key⟩ v
            match skipWs rest4 with
            | ',' :: rest5 => pMembers fuel acc2 rest5
            | c :: rest5 => if c == rbrace then some (.jobj acc2, rest5) else none
            | [] => none
        | _ => none
    | _ => none

/-- Read the elements of an array (after at least one element is known to
follow); `acc` holds the elements read so far, in reverse. -/
def pElems : Nat → List JVal → List Char → Option (JVal × List Char)
  | 0, _, _ => none
  | fuel + 1, acc, cs =>
    match pVal fuel cs with
    | none => none
    | some (v, rest) =>
      match skipWs rest with
      | ',' :: rest2 => pElems fuel (v :: acc) rest2
      | ']' :: rest2 => some (.jarr (v :: acc).reverse, rest2)
      | _ => none

end

/-- Model of Python `json.loads`: the whole text must be one JSON value. -/
def loads (s : String) : Option JVal :=
  match pVal (4 * s.data.length + 8) s.data with
  | some (v, rest) => if (skipWs rest).isEmpty then some v else none
  | none => none

/-! ### Python value helpers -/


/-- Python truthiness of a JSON-shaped value. -/
def pyTruthy : JVal → Bool
  | .jnull => false
  | .jbool b => b
  | .jint n => n != 0
  | .jnum m _ => m != 0
  | .jnan => true
  | .jinf _ => true
  | .jstr s => s != ""
  | .jarr xs => !xs.isEmpty
  | .jobj kvs => !kvs.isEmpty

/-- Python hashability: lists and dicts are unhashable, everything else the
analyzers can meet is hashable. -/
def pyHashable : JVal → Bool
  | .jarr _ => false
  | .jobj _ => false
  | _ => true

/-- Numeric view of a value, as a scaled decimal `(m, e)` standing for
`m * 10 ^ e`; Python `bool` counts as a number (`True == 1`). -/
def numView : JVal → Option (Int × Int)
  | .jbool b => some (if b then 1 else 0, 0)
  | .jint n => some (n, 0)
  | .jnum m e => some (m, e)
  | _ => none

/-- Equality of two scaled decimals. -/
def numEqB : Int × Int → Int × Int → Bool
  | (m1, e1), (m2, e2) =>
    if e1 ≤ e2 then m1 == m2 * 10 ^ (e2 - e1).toNat
    else m1 * 10 ^ (e1 - e2).toNat == m2

/-- Model of Python `==` on the values the merge steps compare.  Containers
compare `false` here; the only place this relation is used (`dict.fromkeys`
deduplication) raises before ever comparing an unhashable value, so the
container case is unreachable in context. -/
def pyEq (a b : JVal) : Bool :=
  match numView a, numView b with
  | some x, some y => numEqB x y
  | _, _ =>
    match a, b with
    | .jnull, .jnull => true
    | .jstr s, .jstr t => s == t
    | .jinf x, .jinf y => x == y
    | _, _ => false

/-- Strip leading/trailing ASCII whitespace (model of `str.strip()` as used
by `int(str)`). -/
def trimWsChars (cs : List Char) : List Char :=
  ((cs.dropWhile (fun c => isJWs c || c == '\x0b' || c == '\x0c')).reverse.dropWhile
    (fun c => isJWs c || c == '\x0b' || c == '\x0c')).reverse

/-- Value of a nonempty all-digit character run, if it is one. -/
def allDigitsVal : List Char → Option Nat
  | [] => none
  | cs =>
    cs.foldl (fun acc c =>
      match acc, digVal c with
      | some a, some d => some (a * 10 + d)
      | _, _ => none) (some 0)

/-- Model of Python `int(s)` for a string: optional sign, decimal digits
(the underscore-separator extension is not modelled). -/
def pyIntOfStr (s : String) : Option Int :=
  match trimWsChars s.data with
  | '-' :: rest => (allDigitsVal rest).map (fun n => -(n : Int))
  | '+' :: rest => (allDigitsVal rest).map (fun n => (n : Int))
  | cs => (allDigitsVal cs).map (fun n => (n : Int))

/-- Model of Python `int(v)` on a non-`None` value, `none` when it raises:
numbers truncate toward zero, strings parse as decimal integers, everything
else raises. -/
def pyToIntOpt : JVal → Option Int
  | .jbool b => some (if b then 1 else 0)
  | .jint n => some n
  | .jnum m e =>
    if 0 ≤ e then some (m * 10 ^ e.toNat) else some (Int.tdiv m (10 ^ (-e).toNat))
  | .jstr s => pyIntOfStr s
  | _ => none

/-- Last-one-wins is already applied by `upsert`, so object lookup is plain
association-list lookup; Python `dict.get(k)` returns `None` when absent,
which callers must distinguish from a stored `null`, hence the `Option`. -/
def jGet (kvs : List (String × JVal)) (k : String) : Option JVal :=
  match kvs.find? (fun kv => kv.1 == k) with
  | some kv => some kv.2
  | none => none

/-- Render a `Decimal`-with-one-fraction-digit, given as tenths (used only in
documentation of the model; results stay as tenths everywhere). -/
def tenthsVal (t : Int) : ℚ := (t : ℚ) / 10

/-- Round-half-even division `num / den` (for `den > 0`), the rounding mode
`decimal.Decimal.quantize` applies by default. -/
def rheDiv (num den : Int) : Int :=
  if 2 * (num - num / den * den) < den then num / den
  else if den < 2 * (num - num / den * den) then num / den + 1
  else if num / den % 2 = 0 then num / den else num / den + 1

/-- The tenths of `Decimal(s / n).quantize(Decimal('0.1'))` for an integer
sum `s` of `n` collected scores (float division modelled exactly). -/
def avgTenths (s : Int) (n : Nat) : Int := rheDiv (10 * s) n

/-- Decidable equality for fallible results, used only to evaluate the
embedding at concrete inputs. -/
instance {e a : Type} [DecidableEq e] [DecidableEq a] : DecidableEq (Except e a) := fun x y =>
  match x, y with
  | .error u, .error v =>
    match decEq u v with
    | isTrue h => isTrue (by rw [h])
    | isFalse h => isFalse (fun hh => by cases hh; exact h rfl)
  | .ok u, .ok v =>
    match decEq u v with
    | isTrue h => isTrue (by rw [h])
    | isFalse h => isFalse (fun hh => by cases hh; exact h rfl)
  | .error _, .ok _ => isFalse (fun hh => by cases hh)
  | .ok _, .error _ => isFalse (fun hh => by cases hh)

/-! ### Shared pieces of the two aggregator instances -/


/-- Index of the last occurrence of a character. -/
def lastIdxOf (c : Char) (cs : List Char) : Option Nat :=
  ((cs.enum.filter (fun p => p.2 == c)).getLast?).map (fun p => p.1)

/-- The list a critic's `forbidden_alternatives`/`jargon_violations` value
contributes: the value itself when list-shaped, else a singleton
(`v if isinstance(v, list) else [v]`). -/
def altExt : JVal → List JVal
  | .jarr xs => xs
  | w => [w]

/-- `merged.setdefault(k, []).extend(vs)`: appends to an existing key's list,
else adds the key at the end. -/
def extendAlts (acc : List (String × List JVal)) (k : String) (vs : List JVal) :
    List (String × List JVal) :=
  if acc.any (fun kv => kv.1 == k) then
    acc.map (fun kv => if kv.1 == k then (kv.1, kv.2 ++ vs) else kv)
  else acc ++ [(k, vs)]

/-- The merge loop over every critic's mapping field. -/
def mergeRaw (ds : List (List (String × JVal))) : List (String × List JVal) :=
  ds.foldl (fun acc d => d.foldl (fun a kv => extendAlts a kv.1 (altExt kv.2)) acc) []

/-- First-seen-order deduplication by Python `==`. -/
def dedupPy (l : List JVal) : List JVal :=
  l.foldl (fun acc x => if acc.any (fun y => pyEq y x) then acc else acc ++ [x]) []

/-- Model of `list(dict.fromkeys(l))`: raises `TypeError` when any element is
unhashable, otherwise deduplicates keeping first occurrences. -/
def fromkeysE (l : List JVal) : Except Unit (List JVal) :=
  if l.all pyHashable then .ok (dedupPy l) else .error ()

/-- Deduplicate every merged value list, propagating the first `TypeError`. -/
def dedupAllE : List (String × List JVal) → Except Unit (List (String × List JVal))
  | [] => .ok []
  | kv :: rest =>
    match fromkeysE kv.2 with
    | .error e => .error e
    | .ok ds =>
      match dedupAllE rest with
      | .error e => .error e
      | .ok rs => .ok ((kv.1, ds) :: rs)

/-- Sequence a list of fallible results (the aggregation loop's control flow:
the first uncaught exception aborts the whole call). -/
def seqE : List (Except Unit α) → Except Unit (List α)
  | [] => .ok []
  | .error e :: _ => .error e
  | .ok a :: rest =>
    match seqE rest with
    | .error e => .error e
    | .ok as1 => .ok (a :: as1)

/-- Ordered duplicate-free insertion for an irreflexive comparison `lt`. -/
def insOrd [DecidableEq α] (lt : α → α → Bool) (x : α) : List α → List α
  | [] => [x]
  | y :: ys =>
    if lt x y then x :: y :: ys
    else if x = y then y :: ys
    else y :: insOrd lt x ys

/-- Model of Python `sorted(list(set(l)))` for a strict total order `lt`. -/
def sortDedupBy [DecidableEq α] (lt : α → α → Bool) (l : List α) : List α :=
  l.foldr (insOrd lt) []

/-- Strict order on integers as a Boolean. -/
def intLtB (a b : Int) : Bool := a < b

/-- Lexicographic code-point order on character lists (Python `<` on `str`). -/
def lexLt : List Char → List Char → Bool
  | [], [] => false
  | [], _ :: _ => true
  | _ :: _, [] => false
  | a :: as, b :: bs => decide (a < b) || (a == b && lexLt as bs)

/-- Python `<` on strings. -/
def strLtB (a b : String) : Bool := lexLt a.data b.data

/-- `sorted(list(set(...)))` on integers. -/
def sortedUniqInt (l : List Int) : List Int := sortDedupBy intLtB l

/-- `sorted(list(set(...)))` on strings. -/
def sortedUniqStr (l : List String) : List String := sortDedupBy strLtB l

/-- The `keep` test of both aggregation loops: skip empty responses and
responses containing the failure sentinel
(`if not critique_text or 'failed' in critique_text.lower(): continue`). -/
def keepText (t : String) : Bool := !(t == "") && !(strIn "failed" (lowStr t))

/-- The `(parsed.get(key) or '').upper()` idiom: absent, `null` and falsy
values normalize to `""`; a truthy non-string raises `AttributeError`. -/
def upperVerdict (v : Option JVal) : Except Unit String :=
  let w : JVal :=
    match v with
    | some x => if pyTruthy x then x else .jstr ""
    | none => .jstr ""
  match w with
  | .jstr s => .ok (upStr s)
  | _ => .error ()

/-- `as_int` of both `parse_structured`s: `int(v) if v is not None else None`,
with every exception caught to the default. -/
def asInt (kvs : List (String × JVal)) (k : String) : Option Int :=
  match jGet kvs k with
  | none => none
  | some .jnull => none
  | some v => pyToIntOpt v

/-- `as_list`: the value if list-shaped, else `[]`. -/
def asList (kvs : List (String × JVal)) (k : String) : List JVal :=
  match jGet kvs k with
  | some (.jarr xs) => xs
  | _ => []

/-- `as_dict`: the value if mapping-shaped, else `{}`. -/
def asDict (kvs : List (String × JVal)) (k : String) : List (String × JVal) :=
  match jGet kvs k with
  | some (.jobj m) => m
  | _ => []

/-- `parsed.get(k, '')`. -/
def getOrEmpty (kvs : List (String × JVal)) (k : String) : JVal :=
  (jGet kvs k).getD (.jstr "")

namespace CritiqueAnalyzer

/-- `CritiqueAnalyzer._parse_json_block`: whole-text `json.loads` first, then
the first-`\x7b`-to-last-`\x7d` substring; only mapping results count; every
parse failure yields `None`. -/
def parse_json_block (text : String) : Option (List (String × JVal)) :=
  if text == "" || !(subList [lbrace] text.data) then none
  else
    match loads text with
    | some (.jobj kvs) => some kvs
    | _ =>
      match text.data.findIdx? (fun c => c == lbrace), lastIdxOf rbrace text.data with
      | some s, some e =>
        match loads ⟨(text.data.drop s).take (e + 1 - s)⟩ with
        | some (.jobj kvs) => some kvs
        | _ => none
      | _, _ => none

/-- The normalized record `CritiqueAnalyzer.parse_structured` builds.
`Decimal` never appears here; integer scores stay integers. -/
structure ParsedC where
  physics_engine_score : Option Int
  zero_kelvin_shield_score : Option Int
  verdict_output_score : Option Int
  scalpel_edge_score : Option Int
  kinetic_action_score : Option Int
  clinical_tone_score : Option Int
  venom_density : Option Int
  value_density : Option Int
  structural_failures : List JVal
  artifact : JVal
  forbidden_alternatives : List (String × JVal)
  sentence_triggers : List JVal
  final_verdict : String
  notes : JVal

/-- `CritiqueAnalyzer.parse_structured`: normalize the parsed JSON block with
safe defaults; the one uncaught exception site is the
`(parsed.get('final_verdict') or '').upper()` call. -/
def parse_structured (text : String) : Except Unit ParsedC :=
  let parsed := (parse_json_block text).getD []
  match upperVerdict (jGet parsed "final_verdict") with
  | .error e => .error e
  | .ok fv =>
    .ok { physics_engine_score := asInt parsed "physics_engine_score"
          zero_kelvin_shield_score := asInt parsed "zero_kelvin_shield_score"
          verdict_output_score := asInt parsed "verdict_output_score"
          scalpel_edge_score := asInt parsed "scalpel_edge_score"
          kinetic_action_score := asInt parsed "kinetic_action_score"
          clinical_tone_score := asInt parsed "clinical_tone_score"
          venom_density := asInt parsed "venom_density"
          value_density := asInt parsed "value_density"
          structural_failures := asList parsed "structural_failures"
          artifact := getOrEmpty parsed "artifact"
          forbidden_alternatives := asDict parsed "forbidden_alternatives"
          sentence_triggers := asList parsed "sentence_triggers"
          final_verdict := fv
          notes := getOrEmpty parsed "notes" }

/-- `CritiqueAnalyzer.extract_verdict`: JSON `final_verdict` first (validated
against the closed vocabulary, falling through when invalid), then the
explicit `VERDICT:` label search, then the indicator-count heuristic.  The
heuristic tests the lowercase indicator words against the *uppercased* text,
exactly as the source does. -/
def extract_verdict (text : String) : Except Unit String :=
  let fromJson : Except Unit (Option String) :=
    match parse_json_block text with
    | some kvs =>
      if !kvs.isEmpty then
        match jGet kvs "final_verdict" with
        | some (.jstr s) =>
          .ok (if ["CLEAR", "REVISE", "REJECT"].contains (upStr s) then some (upStr s) else none)
        | some _ => .error ()
        | none => .ok none
      else .ok none
    | none => .ok none
  match fromJson with
  | .error e => .error e
  | .ok (some v) => .ok v
  | .ok none =>
    let text_upper := upStr text
    let labeled : Option String :=
      if strIn "VERDICT:" text_upper || strIn "FINAL VERDICT:" text_upper then
        if strIn "CLEAR" text_upper then some "CLEAR"
        else if strIn "REJECT" text_upper then some "REJECT"
        else if strIn "REVISE" text_upper then some "REVISE"
        else none
      else none
    match labeled with
    | some v => .ok v
    | none =>
      let reject_count :=
        (["reject", "fail", "unacceptable", "do not publish"].filter
          (fun t => strIn t text_upper)).length
      let clear_count :=
        (["clear", "publish", "approved", "ready"].filter
          (fun t => strIn t text_upper)).length
      if reject_count > clear_count ∧ reject_count > 2 then .ok "REJECT"
      else if clear_count > reject_count ∧ clear_count > 2 then .ok "CLEAR"
      else .ok "REVISE"

/-- The truthy collected verdicts
(`[p['final_verdict'] for p in parsed_list if p.get('final_verdict')]`). -/
def collectVerdicts (ps : List ParsedC) : List String :=
  ps.filterMap (fun p => if p.final_verdict == "" then none else some p.final_verdict)

/-- The `venom without substance` red flag: `v_density < 40 and weapon > 70`,
with `x or 0` defaulting absent scores to 0. -/
def redFlagWeapon (p : ParsedC) : Bool :=
  p.value_density.getD 0 < 40 && 70 < p.verdict_output_score.getD 0

/-- The low-value/weak-engine red flag: `v_density < 30 and engine < 40`. -/
def redFlagEngine (p : ParsedC) : Bool :=
  p.value_density.getD 0 < 30 && p.physics_engine_score.getD 0 < 40

/-- The verdict-resolution policy of `CritiqueAnalyzer.calculate_consensus`. -/
def resolveVerdict (ps : List ParsedC) : String :=
  let final_verdicts := collectVerdicts ps
  if final_verdicts.contains "REJECT" then "REJECT"
  else
    let strong_weapon_but_weak_engine := ps.countP redFlagWeapon
    let low_value_alerts := ps.countP redFlagEngine
    if 2 ≤ strong_weapon_but_weak_engine ∨ 2 ≤ low_value_alerts then "REJECT"
    else if 2 ≤ final_verdicts.count "CLEAR" then "CLEAR"
    else if 0 < final_verdicts.length then "REVISE"
    else "REVISE"

/-- The collected clinical scores (only critics whose record has one). -/
def collectScores (ps : List ParsedC) : List Int :=
  ps.filterMap (fun p => p.clinical_tone_score)

/-- `avg_score`: `None` when no critic contributed, else the one-decimal
quantized mean, in tenths. -/
def avgScore (ps : List ParsedC) : Option Int :=
  let scores := collectScores ps
  if scores.isEmpty then none else some (avgTenths scores.sum scores.length)

/-- The first truthy artifact in critic order, else `''`. -/
def chooseArtifact (ps : List ParsedC) : JVal :=
  match ps.find? (fun p => pyTruthy p.artifact) with
  | some p => p.artifact
  | none => .jstr ""

/-- Merged, deduplicated `sentence_triggers` (`sorted(list(triggers))` with
`int(idx)` coercion and silently dropped failures). -/
def mergeTriggers (ps : List ParsedC) : List Int :=
  sortedUniqInt ((ps.flatMap (fun p => p.sentence_triggers)).filterMap pyToIntOpt)

/-- The record `CritiqueAnalyzer.calculate_consensus` returns; the average is
in tenths (`some 702` is `Decimal('70.2')`). -/
structure ConsensusC where
  avg_clinical_score : Option Int
  consensus_verdict : String
  artifact : JVal
  forbidden_alternatives : List (String × List JVal)
  sentence_triggers : List Int

/-- The aggregation loop's parsing stage: drop excluded responses, parse the
rest in order, propagating the first uncaught exception. -/
def parsedCritiques (critiques : List (String × String)) : Except Unit (List ParsedC) :=
  seqE ((critiques.filter (fun it => keepText it.2)).map (fun it => parse_structured it.2))

/-- `CritiqueAnalyzer.calculate_consensus` over an insertion-ordered list of
`(critic identity, raw text)` pairs. -/
def calculate_consensus (critiques : List (String × String)) : Except Unit ConsensusC :=
  match parsedCritiques critiques with
  | .error e => .error e
  | .ok parsed_list =>
    match dedupAllE (mergeRaw (parsed_list.map (fun p => p.forbidden_alternatives))) with
    | .error e => .error e
    | .ok merged_alts =>
      .ok { avg_clinical_score := avgScore parsed_list
            consensus_verdict := resolveVerdict parsed_list
            artifact := chooseArtifact parsed_list
            forbidden_alternatives := merged_alts
            sentence_triggers := mergeTriggers parsed_list }

end CritiqueAnalyzer

/-! ### The writing-rubric instance -/


/-- Pad a digit string on the left with zeros to width `k`. -/
def padZeros (s : String) (k : Nat) : String :=
  ⟨List.replicate (k - s.data.length) '0' ++ s.data⟩

/-- Drop trailing zero digits. -/
def trimZeros (s : String) : String := ⟨(s.data.reverse.dropWhile (fun c => c == '0')).reverse⟩

/-- Decimal rendering of a scaled decimal `m * 10 ^ e` (model of `str` on the
floats `json.loads` produces; exact decimal in place of shortest-roundtrip
float repr). -/
def decStr (m e : Int) : String :=
  if 0 ≤ e then toString (m * 10 ^ e.toNat) ++ ".0"
  else
    let k := (-e).toNat
    let sign := if m < 0 then "-" else ""
    let a := m.natAbs
    let ip := a / 10 ^ k
    let fp := a % 10 ^ k
    let t := trimZeros (padZeros (toString fp) k)
    sign ++ toString ip ++ "." ++ (if t == "" then "0" else t)

/-- Model of Python `str(v)`.  Scalars are rendered exactly; a container's
rendering is abbreviated — no behaviour any claim concerns depends on the
printed form of a container-valued entry.  For the same reason `pyEq` treats
distinct containers as unequal. -/
def pyStr : JVal → String
  | .jnull => "None"
  | .jbool true => "True"
  | .jbool false => "False"
  | .jint n => toString n
  | .jnum m e => decStr m e
  | .jnan => "nan"
  | .jinf false => "inf"
  | .jinf true => "-inf"
  | .jstr s => s
  | .jarr _ => "[...]"
  | .jobj _ => "\x7b...\x7d"

/-- `as_str` of `WritingAnalyzer.parse_structured`:
`str(v) if v is not None else default`, default `''`. -/
def asStr (kvs : List (String × JVal)) (k : String) : String :=
  match jGet kvs k with
  | none => ""
  | some .jnull => ""
  | some v => pyStr v

namespace WritingAnalyzer

/-- `WritingAnalyzer._parse_json_block` is textually identical to
`CritiqueAnalyzer._parse_json_block`. -/
def parse_json_block (text : String) : Option (List (String × JVal)) :=
  CritiqueAnalyzer.parse_json_block text

/-- The normalized record `WritingAnalyzer.parse_structured` builds.  The
`recurring_patterns` list field is carried, but its set-merge in the
consensus (whose order is Python set-iteration order, i.e. hash order) is
not modelled in the result record. -/
structure ParsedW where
  orwellian_clarity_score : Option Int
  hitchensian_fire_score : Option Int
  vivid_physicality_score : Option Int
  technical_execution_score : Option Int
  abstract_nouns : List JVal
  passive_voice_sentences : List JVal
  jargon_violations : List (String × JVal)
  weak_verbs : List JVal
  rhetorical_highlights : List JVal
  verdict : String
  summary : JVal
  diagnostic_summary : String
  before_after_examples : List JVal
  strengths_to_amplify : List JVal
  recurring_patterns : List JVal
  concrete_next_steps : List JVal
  one_sentence_verdict : String

/-- `WritingAnalyzer.parse_structured`; the one uncaught exception site is
`(parsed.get('verdict') or '').upper()`. -/
def parse_structured (text : String) : Except Unit ParsedW :=
  let parsed := (parse_json_block text).getD []
  match upperVerdict (jGet parsed "verdict") with
  | .error e => .error e
  | .ok v =>
    .ok { orwellian_clarity_score := asInt parsed "orwellian_clarity_score"
          hitchensian_fire_score := asInt parsed "hitchensian_fire_score"
          vivid_physicality_score := asInt parsed "vivid_physicality_score"
          technical_execution_score := asInt parsed "technical_execution_score"
          abstract_nouns := asList parsed "abstract_nouns"
          passive_voice_sentences := asList parsed "passive_voice_sentences"
          jargon_violations := asDict parsed "jargon_violations"
          weak_verbs := asList parsed "weak_verbs"
          rhetorical_highlights := asList parsed "rhetorical_highlights"
          verdict := v
          summary := getOrEmpty parsed "summary"
          diagnostic_summary := asStr parsed "diagnostic_summary"
          before_after_examples := asList parsed "before_after_examples"
          strengths_to_amplify := asList parsed "strengths_to_amplify"
          recurring_patterns := asList parsed "recurring_patterns"
          concrete_next_steps := asList parsed "concrete_next_steps"
          one_sentence_verdict := asStr parsed "one_sentence_verdict" }

/-- Mean in tenths of one numeric rubric field over the critics that
reported it; `None` when none did. -/
def avgBy (f : ParsedW → Option Int) (ps : List ParsedW) : Option Int :=
  let scores := ps.filterMap f
  if scores.isEmpty then none else some (avgTenths scores.sum scores.length)

/-- Python truthiness of an optional `Decimal` average: `None` and `0.0` are
both falsy (`if avg_clarity and avg_fire and ...`). -/
def truthyTenths : Option Int → Bool
  | none => false
  | some t => t != 0

/-- The weighted overall score: computed only when all four averages are
*truthy*; weights 0.40/0.30/0.20/0.10, quantized to one decimal. -/
def overallScore (ps : List ParsedW) : Option Int :=
  let a := avgBy (fun p => p.orwellian_clarity_score) ps
  let f := avgBy (fun p => p.hitchensian_fire_score) ps
  let v := avgBy (fun p => p.vivid_physicality_score) ps
  let t := avgBy (fun p => p.technical_execution_score) ps
  if truthyTenths a && truthyTenths f && truthyTenths v && truthyTenths t then
    some (rheDiv (4 * a.getD 0 + 3 * f.getD 0 + 2 * v.getD 0 + t.getD 0) 10)
  else none

/-- The truthy collected verdicts. -/
def collectVerdicts (ps : List ParsedW) : List String :=
  ps.filterMap (fun p => if p.verdict == "" then none else some p.verdict)

/-- The verdict-resolution policy of `WritingAnalyzer.calculate_consensus`. -/
def resolveVerdict (ps : List ParsedW) : String :=
  let final_verdicts := collectVerdicts ps
  if final_verdicts.contains "REWRITE" then "REWRITE"
  else if 2 ≤ final_verdicts.count "PUBLISH" then "PUBLISH"
  else if 0 < final_verdicts.length then "REVISE"
  else "REVISE"

/-- Merged abstract nouns: lowercased, set-deduplicated, sorted. -/
def mergeNouns (ps : List ParsedW) : List String :=
  sortedUniqStr ((ps.flatMap (fun p => p.abstract_nouns)).map (fun v => lowStr (pyStr v)))

/-- Merged passive-voice sentence indices: `int`-coerced (failures dropped),
set-deduplicated, sorted. -/
def mergePassive (ps : List ParsedW) : List Int :=
  sortedUniqInt ((ps.flatMap (fun p => p.passive_voice_sentences)).filterMap pyToIntOpt)

/-- Merged weak verbs: lowercased, set-deduplicated, sorted. -/
def mergeWeakVerbs (ps : List ParsedW) : List String :=
  sortedUniqStr ((ps.flatMap (fun p => p.weak_verbs)).map (fun v => lowStr (pyStr v)))

/-- First nonempty diagnostic summary in critic order. -/
def bestDiagnostic (ps : List ParsedW) : String :=
  match (ps.map (fun p => p.diagnostic_summary)).filter (fun s => s != "") with
  | [] => ""
  | s :: _ => s

/-- First nonempty one-sentence verdict in critic order. -/
def bestOneSentence (ps : List ParsedW) : String :=
  match (ps.map (fun p => p.one_sentence_verdict)).filter (fun s => s != "") with
  | [] => ""
  | s :: _ => s

/-- The record `WritingAnalyzer.calculate_consensus` returns (averages and
overall score in tenths; the hash-ordered `recurring_patterns` list is not
modelled). -/
structure ConsensusW where
  orwellian_clarity_score : Option Int
  hitchensian_fire_score : Option Int
  vivid_physicality_score : Option Int
  technical_execution_score : Option Int
  overall_score : Option Int
  consensus_verdict : String
  abstract_nouns : List String
  passive_voice_sentences : List Int
  jargon_violations : List (String × List JVal)
  weak_verbs : List String
  rhetorical_highlights : List JVal
  diagnostic_summary : String
  before_after_examples : List JVal
  strengths_to_amplify : List JVal
  concrete_next_steps : List JVal
  one_sentence_verdict : String

/-- The aggregation loop's parsing stage: drop excluded responses, parse the
rest in order, propagating the first uncaught exception. -/
def parsedCritiques (critiques : List (String × String)) : Except Unit (List ParsedW) :=
  seqE ((critiques.filter (fun it => keepText it.2)).map (fun it => parse_structured it.2))

/-- `WritingAnalyzer.calculate_consensus` over an insertion-ordered list of
`(critic identity, raw text)` pairs. -/
def calculate_consensus (critiques : List (String × String)) : Except Unit ConsensusW :=
  match parsedCritiques critiques with
  | .error e => .error e
  | .ok parsed_list =>
    match dedupAllE (mergeRaw (parsed_list.map (fun p => p.jargon_violations))) with
    | .error e => .error e
    | .ok merged_jargon =>
      .ok { orwellian_clarity_score := avgBy (fun p => p.orwellian_clarity_score) parsed_list
            hitchensian_fire_score := avgBy (fun p => p.hitchensian_fire_score) parsed_list
            vivid_physicality_score := avgBy (fun p => p.vivid_physicality_score) parsed_list
            technical_execution_score := avgBy (fun p => p.technical_execution_score) parsed_list
            overall_score := overallScore parsed_list
            consensus_verdict := resolveVerdict parsed_list
            abstract_nouns := mergeNouns parsed_list
            passive_voice_sentences := mergePassive parsed_list
            jargon_violations := merged_jargon
            weak_verbs := mergeWeakVerbs parsed_list
            rhetorical_highlights := parsed_list.flatMap (fun p => p.rhetorical_highlights)
            diagnostic_summary := bestDiagnostic parsed_list
            before_after_examples := (parsed_list.flatMap (fun p => p.before_after_examples)).take 5
            strengths_to_amplify := parsed_list.flatMap (fun p => p.strengths_to_amplify)
            concrete_next_steps := (dedupPy (parsed_list.flatMap (fun p => p.concrete_next_steps))).take 5
            one_sentence_verdict := bestOneSentence parsed_list }

end WritingAnalyzer

/-! ### Auxiliary lemmas: sequencing -/


/-- Forget the error of a fallible result. -/
def exToOption : Except Unit α → Option α
  | .ok a => some a
  | .error _ => none

/-! ### Auxiliary lemmas: totality of the aggregator on benign inputs -/


/-- A verdict value on which `(v or '').upper()` cannot raise: absent, falsy,
or a string. -/
def safeVerdictVal : Option JVal → Bool
  | none => true
  | some x => !(pyTruthy x) || (match x with | .jstr _ => true | _ => false)

/-- Every merged alternatives list consists of hashable values. -/
def altsOK (acc : List (String × List JVal)) : Prop :=
  ∀ kv ∈ acc, ∀ x ∈ kv.2, pyHashable x = true

namespace CritiqueAnalyzer

/-- A critique text on which the clinical aggregator provably cannot raise:
the JSON block's `final_verdict` is absent, falsy or a string; every
`forbidden_alternatives` contribution is hashable; and the clinical score is
small enough that the (unmodelled) 28-digit `decimal` context precision can
never be exceeded by `quantize`. -/
def safeCritique (t : String) : Bool :=
  match parse_json_block t with
  | none => true
  | some kvs =>
    safeVerdictVal (jGet kvs "final_verdict") &&
    (asDict kvs "forbidden_alternatives").all (fun kv => (altExt kv.2).all pyHashable) &&
    (match asInt kvs "clinical_tone_score" with
     | none => true
     | some n => n.natAbs ≤ 10 ^ 18)

/-- Modelled from the spec's words: collected verdicts with the closed
vocabulary validation the spec describes (a non-vocabulary verdict
normalizes to "no opinion" and is never collected). -/
def specCollectVerdicts (ps : List ParsedC) : List String :=
  ps.filterMap (fun p =>
    if ["CLEAR", "REVISE", "REJECT"].contains p.final_verdict then some p.final_verdict
    else none)

/-- Modelled from the spec's words: the decision tree of
`calculate_consensus`, evaluated over only the vocabulary-validated
verdicts. -/
def specResolveVerdict (ps : List ParsedC) : String :=
  let fv := specCollectVerdicts ps
  if fv.contains "REJECT" then "REJECT"
  else
    if 2 ≤ ps.countP redFlagWeapon ∨ 2 ≤ ps.countP redFlagEngine then "REJECT"
    else if 2 ≤ fv.count "CLEAR" then "CLEAR"
    else if 0 < fv.length then "REVISE"
    else "REVISE"

end CritiqueAnalyzer

namespace WritingAnalyzer

/-- Modelled from the spec's words: collected verdicts with the closed
vocabulary validation the spec describes. -/
def specCollectVerdicts (ps : List ParsedW) : List String :=
  ps.filterMap (fun p =>
    if ["PUBLISH", "REVISE", "REWRITE"].contains p.verdict then some p.verdict
    else none)

/-- Modelled from the spec's words: the decision tree of
`calculate_consensus`, evaluated over only the vocabulary-validated
verdicts. -/
def specResolveVerdict (ps : List ParsedW) : String :=
  let fv := specCollectVerdicts ps
  if fv.contains "REWRITE" then "REWRITE"
  else if 2 ≤ fv.count "PUBLISH" then "PUBLISH"
  else if 0 < fv.length then "REVISE"
  else "REVISE"

end WritingAnalyzer

/-- A blank normalized clinical record: every field at its parser default
(what `parse_structured` returns for a critique with no usable JSON). -/
def blankC : CritiqueAnalyzer.ParsedC :=
  { physics_engine_score := none
    zero_kelvin_shield_score := none
    verdict_output_score := none
    scalpel_edge_score := none
    kinetic_action_score := none
    clinical_tone_score := none
    venom_density := none
    value_density := none
    structural_failures := []
    artifact := .jstr ""
    forbidden_alternatives := []
    sentence_triggers := []
    final_verdict := ""
    notes := .jstr "" }

/-- A blank normalized writing record. -/
def blankW : WritingAnalyzer.ParsedW :=
  { orwellian_clarity_score := none
    hitchensian_fire_score := none
    vivid_physicality_score := none
    technical_execution_score := none
    abstract_nouns := []
    passive_voice_sentences := []
    jargon_violations := []
    weak_verbs := []
    rhetorical_highlights := []
    verdict := ""
    summary := .jstr ""
    diagnostic_summary := ""
    before_after_examples := []
    strengths_to_amplify := []
    recurring_patterns := []
    concrete_next_steps := []
    one_sentence_verdict := "" }

/-- Four critic responses whose clinical scores are 70, 70, 70 and 71 (their
mean 70.25 sits exactly on a rounding tie). -/
def tieItems : List (String × String) :=
  [("claude", "\x7b\"clinical_tone_score\": 70\x7d"),
   ("gpt", "\x7b\"clinical_tone_score\": 70\x7d"),
   ("gemini", "\x7b\"clinical_tone_score\": 70\x7d"),
   ("grok", "\x7b\"clinical_tone_score\": 71\x7d")]

/-- The normalized records of `tieItems`. -/
def tiePs : List CritiqueAnalyzer.ParsedC :=
  [{ blankC with clinical_tone_score := some 70 },
   { blankC with clinical_tone_score := some 70 },
   { blankC with clinical_tone_score := some 70 },
   { blankC with clinical_tone_score := some 71 }]

/-- The consensus record of `tieItems` (the four score-only critics trip the
low-value red flag, hence the REJECT). -/
def tieRes : CritiqueAnalyzer.ConsensusC :=
  { avg_clinical_score := some 702
    consensus_verdict := "REJECT"
    artifact := .jstr ""
    forbidden_alternatives := []
    sentence_triggers := [] }

/-- Two critic responses used to exercise permutation invariance; their
artifacts differ so the first-match-wins field changes with the order while
the averages do not. -/
def permItemsA : List (String × String) :=
  [("claude", "\x7b\"clinical_tone_score\": 10, \"artifact\": \"A\"\x7d"),
   ("gpt", "\x7b\"clinical_tone_score\": 30, \"artifact\": \"B\"\x7d")]

/-- The same two critic responses in the opposite insertion order. -/
def permItemsB : List (String × String) :=
  [("gpt", "\x7b\"clinical_tone_score\": 30, \"artifact\": \"B\"\x7d"),
   ("claude", "\x7b\"clinical_tone_score\": 10, \"artifact\": \"A\"\x7d")]

/-- The clinical consensus of `permItemsA`: artifact `"A"` wins. -/
def permResC1 : CritiqueAnalyzer.ConsensusC :=
  { avg_clinical_score := some 200
    consensus_verdict := "REJECT"
    artifact := .jstr "A"
    forbidden_alternatives := []
    sentence_triggers := [] }

/-- The clinical consensus of `permItemsB`: artifact `"B"` wins. -/
def permResC2 : CritiqueAnalyzer.ConsensusC :=
  { avg_clinical_score := some 200
    consensus_verdict := "REJECT"
    artifact := .jstr "B"
    forbidden_alternatives := []
    sentence_triggers := [] }

/-- A critic record reporting low substantive density together with high
rhetorical force: it trips the venom-without-substance red flag. -/
def venomC : CritiqueAnalyzer.ParsedC :=
  { blankC with
    value_density := some 30
    verdict_output_score := some 80
    final_verdict := "REVISE" }

/-- A critic record that omits `value_density` entirely while reporting a
high `verdict_output_score`. -/
def venomNoDensityC : CritiqueAnalyzer.ParsedC :=
  { blankC with
    verdict_output_score := some 90
    final_verdict := "REVISE" }

/-- The writing consensus of `permItemsA`/`permItemsB` (no writing-rubric
field is present in them). -/
def permResW : WritingAnalyzer.ConsensusW :=
  { orwellian_clarity_score := none
    hitchensian_fire_score := none
    vivid_physicality_score := none
    technical_execution_score := none
    overall_score := none
    consensus_verdict := "REVISE"
    abstract_nouns := []
    passive_voice_sentences := []
    jargon_violations := []
    weak_verbs := []
    rhetorical_highlights := []
    diagnostic_summary := ""
    before_after_examples := []
    strengths_to_amplify := []
    concrete_next_steps := []
    one_sentence_verdict := "" }


/-- Sanity check of the reader on a small document. -/
example :
    loads " \x7b\"a\": [1, true, null], \"b\": \"x\\n\", \"a\": 2\x7d " =
      some (.jobj [("a", .jint 2), ("b", .jstr "x\n")]) := rfl

example : loads "\x7b\"s\": -12.50\x7d" = some (.jobj [("s", .jnum (-1250) (-2))]) := rfl

example : loads "not json" = none := rfl

example : avgTenths 281 4 = 702 := rfl

example : avgTenths 211 3 = 703 := rfl

example : avgTenths 210 3 = 700 := rfl

theorem seqE_ok_of_all {l : List (Except Unit α)} (h : ∀ x ∈ l, ∃ b, x = .ok b) :
    seqE l = .ok (l.filterMap exToOption) := by
  induction l with
  | nil => rfl
  | cons x xs ih =>
    obtain ⟨b, rfl⟩ := h x (List.mem_cons_self x xs)
    have h2 := ih (fun y hy => h y (List.mem_cons_of_mem _ hy))
    simp [seqE, h2, List.filterMap_cons, exToOption]

theorem seqE_error_of_mem {l : List (Except Unit α)} (h : Except.error () ∈ l) :
    seqE l = .error () := by
  induction l with
  | nil => cases h
  | cons x xs ih =>
    rcases List.mem_cons.mp h with h1 | h2
    · rw [← h1]; rfl
    · cases x with
      | error e => cases e; rfl
      | ok a => simp [seqE, ih h2]

theorem seqE_cases (l : List (Except Unit α)) :
    (∀ x ∈ l, ∃ b, x = .ok b) ∨ Except.error () ∈ l := by
  induction l with
  | nil => exact Or.inl (fun x hx => absurd hx (List.not_mem_nil x))
  | cons x xs ih =>
    cases x with
    | error e => cases e; exact Or.inr (List.mem_cons_self _ _)
    | ok b =>
      rcases ih with h | h
      · refine Or.inl (fun y hy => ?_)
        rcases List.mem_cons.mp hy with h1 | h2
        · exact ⟨b, h1⟩
        · exact h y h2
      · exact Or.inr (List.mem_cons_of_mem _ h)

theorem seqE_ok_mem {l : List (Except Unit α)} {bs : List α} (h : seqE l = .ok bs)
    {b : α} (hb : b ∈ bs) : Except.ok b ∈ l := by
  rcases seqE_cases l with hall | herr
  · rw [seqE_ok_of_all hall] at h
    cases h
    rcases List.mem_filterMap.mp hb with ⟨x, hx, hxo⟩
    obtain ⟨c, rfl⟩ := hall x hx
    cases hxo
    exact hx
  · rw [seqE_error_of_mem herr] at h
    cases h

/-! ### Auxiliary lemmas: sorted deduplicated merges -/


theorem mem_insOrd [DecidableEq α] (lt : α → α → Bool) (x y : α) (l : List α) :
    y ∈ insOrd lt x l ↔ y = x ∨ y ∈ l := by
  induction l with
  | nil => simp [insOrd]
  | cons z zs ih =>
    rw [insOrd]
    by_cases h1 : lt x z = true
    · rw [if_pos h1]
      simp only [List.mem_cons]
    · rw [if_neg h1]
      by_cases h2 : x = z
      · rw [if_pos h2]
        subst h2
        simp only [List.mem_cons]
        tauto
      · rw [if_neg h2]
        simp only [List.mem_cons, ih]
        tauto

theorem pairwise_insOrd [DecidableEq α] (lt : α → α → Bool)
    (trns : ∀ a b c, lt a b = true → lt b c = true → lt a c = true)
    (total : ∀ a b, a ≠ b → lt a b = true ∨ lt b a = true)
    (x : α) (l : List α) (h : l.Pairwise (fun a b => lt a b = true)) :
    (insOrd lt x l).Pairwise (fun a b => lt a b = true) := by
  induction l with
  | nil => simp [insOrd]
  | cons z zs ih =>
    rcases List.pairwise_cons.mp h with ⟨hz, hzs⟩
    by_cases h1 : lt x z = true
    · rw [insOrd, if_pos h1]
      refine List.pairwise_cons.mpr ⟨?_, h⟩
      intro y hy
      rcases List.mem_cons.mp hy with rfl | hy2
      · exact h1
      · exact trns _ _ _ h1 (hz y hy2)
    · by_cases h2 : x = z
      · rw [insOrd, if_neg h1, if_pos h2]; exact h
      · rw [insOrd, if_neg h1, if_neg h2]
        have hzx : lt z x = true := by
          rcases total x z h2 with h3 | h3
          · exact absurd h3 h1
          · exact h3
        refine List.pairwise_cons.mpr ⟨?_, ih hzs⟩
        intro y hy
        rcases (mem_insOrd lt x y zs).mp hy with rfl | hy2
        · exact hzx
        · exact hz y hy2

theorem mem_sortDedupBy [DecidableEq α] (lt : α → α → Bool) (l : List α) (y : α) :
    y ∈ sortDedupBy lt l ↔ y ∈ l := by
  induction l with
  | nil => simp [sortDedupBy]
  | cons z zs ih =>
    show y ∈ insOrd lt z (sortDedupBy lt zs) ↔ _
    rw [mem_insOrd, ih]
    simp [List.mem_cons]

theorem pairwise_sortDedupBy [DecidableEq α] (lt : α → α → Bool)
    (trns : ∀ a b c, lt a b = true → lt b c = true → lt a c = true)
    (total : ∀ a b, a ≠ b → lt a b = true ∨ lt b a = true) (l : List α) :
    (sortDedupBy lt l).Pairwise (fun a b => lt a b = true) := by
  induction l with
  | nil => simp [sortDedupBy]
  | cons z zs ih => exact pairwise_insOrd lt trns total z _ ih

theorem pairwiseLt_eq_of_mem_iff [DecidableEq α] {lt : α → α → Bool}
    (asymm : ∀ a b, lt a b = true → lt b a = false) :
    ∀ {l₁ l₂ : List α}, l₁.Pairwise (fun a b => lt a b = true) →
      l₂.Pairwise (fun a b => lt a b = true) → (∀ x, x ∈ l₁ ↔ x ∈ l₂) → l₁ = l₂ := by
  intro l₁
  induction l₁ with
  | nil =>
    intro l₂ _ _ hm
    cases l₂ with
    | nil => rfl
    | cons b bs => exact absurd ((hm b).mpr (List.mem_cons_self b bs)) (List.not_mem_nil b)
  | cons a as ih =>
    intro l₂ h1 h2 hm
    cases l₂ with
    | nil => exact absurd ((hm a).mp (List.mem_cons_self a as)) (List.not_mem_nil a)
    | cons b bs =>
      rcases List.pairwise_cons.mp h1 with ⟨ha, has⟩
      rcases List.pairwise_cons.mp h2 with ⟨hb, hbs⟩
      have hab : a = b := by
        rcases List.mem_cons.mp ((hm a).mp (List.mem_cons_self a as)) with h | h
        · exact h
        · have h3 := hb a h
          rcases List.mem_cons.mp ((hm b).mpr (List.mem_cons_self b bs)) with h4 | h4
          · exact h4.symm
          · have h5 := asymm _ _ (ha b h4)
            rw [h5] at h3
            cases h3
      subst hab
      have hTails : ∀ x, x ∈ as ↔ x ∈ bs := by
        intro x
        constructor
        · intro hx
          have hxa : x ≠ a := by
            intro hxe
            have h6 := ha x hx
            rw [hxe] at h6
            have h7 := asymm _ _ h6
            rw [h7] at h6
            cases h6
          rcases List.mem_cons.mp ((hm x).mp (List.mem_cons_of_mem a hx)) with h7 | h7
          · exact absurd h7 hxa
          · exact h7
        · intro hx
          have hxa : x ≠ a := by
            intro hxe
            have h6 := hb x hx
            rw [hxe] at h6
            have h7 := asymm _ _ h6
            rw [h7] at h6
            cases h6
          rcases List.mem_cons.mp ((hm x).mpr (List.mem_cons_of_mem a hx)) with h7 | h7
          · exact absurd h7 hxa
          · exact h7
      rw [ih has hbs hTails]

theorem sortDedupBy_eq_of_mem_iff [DecidableEq α] (lt : α → α → Bool)
    (trns : ∀ a b c, lt a b = true → lt b c = true → lt a c = true)
    (asymm : ∀ a b, lt a b = true → lt b a = false)
    (total : ∀ a b, a ≠ b → lt a b = true ∨ lt b a = true)
    {l₁ l₂ : List α} (hm : ∀ x, x ∈ l₁ ↔ x ∈ l₂) :
    sortDedupBy lt l₁ = sortDedupBy lt l₂ :=
  pairwiseLt_eq_of_mem_iff asymm (pairwise_sortDedupBy lt trns total l₁)
    (pairwise_sortDedupBy lt trns total l₂)
    (fun x => by rw [mem_sortDedupBy, mem_sortDedupBy]; exact hm x)

theorem intLtB_trans : ∀ a b c : Int, intLtB a b = true → intLtB b c = true →
    intLtB a c = true := by
  intro a b c h1 h2
  simp only [intLtB, decide_eq_true_eq] at *
  omega

theorem intLtB_asymm : ∀ a b : Int, intLtB a b = true → intLtB b a = false := by
  intro a b h
  simp only [intLtB, decide_eq_true_eq, decide_eq_false_iff_not] at *
  omega

theorem intLtB_total : ∀ a b : Int, a ≠ b → intLtB a b = true ∨ intLtB b a = true := by
  intro a b h
  simp only [intLtB, decide_eq_true_eq]
  omega

theorem sortedUniqInt_eq_of_mem_iff {l₁ l₂ : List Int} (hm : ∀ x, x ∈ l₁ ↔ x ∈ l₂) :
    sortedUniqInt l₁ = sortedUniqInt l₂ :=
  sortDedupBy_eq_of_mem_iff intLtB intLtB_trans intLtB_asymm intLtB_total hm

theorem lexLt_trans : ∀ {x y z : List Char}, lexLt x y = true → lexLt y z = true →
    lexLt x z = true := by
  intro x
  induction x with
  | nil =>
    intro y z h1 h2
    cases y with
    | nil => cases h1
    | cons b bs =>
      cases z with
      | nil => cases h2
      | cons c cs => rfl
  | cons a as ih =>
    intro y z h1 h2
    cases y with
    | nil => cases h1
    | cons b bs =>
      cases z with
      | nil => cases h2
      | cons c cs =>
        simp only [lexLt, Bool.or_eq_true, Bool.and_eq_true, decide_eq_true_eq,
          beq_iff_eq] at h1 h2 ⊢
        rcases h1 with h1 | ⟨rfl, h1⟩
        · rcases h2 with h2 | ⟨rfl, h2⟩
          · exact Or.inl (lt_trans h1 h2)
          · exact Or.inl h1
        · rcases h2 with h2 | ⟨rfl, h2⟩
          · exact Or.inl h2
          · exact Or.inr ⟨rfl, ih h1 h2⟩

theorem lexLt_asymm : ∀ {x y : List Char}, lexLt x y = true → lexLt y x = false := by
  intro x
  induction x with
  | nil =>
    intro y h1
    cases y with
    | nil => cases h1
    | cons b bs => rfl
  | cons a as ih =>
    intro y h1
    cases y with
    | nil => cases h1
    | cons b bs =>
      simp only [lexLt, Bool.or_eq_true, Bool.and_eq_true, decide_eq_true_eq, beq_iff_eq,
        Bool.or_eq_false_iff, Bool.and_eq_false_iff, decide_eq_false_iff_not] at h1 ⊢
      rcases h1 with h1 | ⟨rfl, h1⟩
      · exact ⟨lt_asymm h1, Or.inl (beq_eq_false_iff_ne.mpr (ne_of_gt h1))⟩
      · exact ⟨lt_irrefl a, Or.inr (ih h1)⟩

theorem lexLt_total : ∀ {x y : List Char}, x ≠ y → lexLt x y = true ∨ lexLt y x = true := by
  intro x
  induction x with
  | nil =>
    intro y h
    cases y with
    | nil => exact absurd rfl h
    | cons b bs => exact Or.inl rfl
  | cons a as ih =>
    intro y h
    cases y with
    | nil => exact Or.inr rfl
    | cons b bs =>
      rcases lt_trichotomy a b with h1 | h1 | h1
      · refine Or.inl ?_
        simp only [lexLt, Bool.or_eq_true, decide_eq_true_eq]
        exact Or.inl h1
      · subst h1
        have hne : as ≠ bs := fun he => h (by rw [he])
        rcases ih hne with h2 | h2
        · exact Or.inl (by simp [lexLt, h2])
        · exact Or.inr (by simp [lexLt, h2])
      · refine Or.inr ?_
        simp only [lexLt, Bool.or_eq_true, decide_eq_true_eq]
        exact Or.inl h1

theorem stringDataInj {s t : String} (h : s.data = t.data) : s = t := by
  cases s
  cases t
  exact congrArg String.mk h

theorem strLtB_trans : ∀ a b c : String, strLtB a b = true → strLtB b c = true →
    strLtB a c = true := fun _ _ _ h1 h2 => lexLt_trans h1 h2

theorem strLtB_asymm : ∀ a b : String, strLtB a b = true → strLtB b a = false :=
  fun _ _ h => lexLt_asymm h

theorem strLtB_total : ∀ a b : String, a ≠ b → strLtB a b = true ∨ strLtB b a = true :=
  fun _ _ h => lexLt_total (fun he => h (stringDataInj he))

theorem sortedUniqStr_eq_of_mem_iff {l₁ l₂ : List String} (hm : ∀ x, x ∈ l₁ ↔ x ∈ l₂) :
    sortedUniqStr l₁ = sortedUniqStr l₂ :=
  sortDedupBy_eq_of_mem_iff strLtB strLtB_trans strLtB_asymm strLtB_total hm

/-! ### Auxiliary lemmas: round-half-even -/


theorem rheDiv_char {num den : Int} (hden : 0 < den) :
    |(rheDiv num den : ℚ) - (num : ℚ) / (den : ℚ)| ≤ 1 / 2 ∧
      (|(rheDiv num den : ℚ) - (num : ℚ) / (den : ℚ)| = 1 / 2 → rheDiv num den % 2 = 0) := by
  have hdQ : (0 : ℚ) < (den : ℚ) := by exact_mod_cast hden
  have hdne : (den : ℚ) ≠ 0 := ne_of_gt hdQ
  have hsplit : (den : ℚ) * ((num / den : Int) : ℚ) + ((num % den : Int) : ℚ)
      = (num : ℚ) := by
    exact_mod_cast congrArg (fun z : Int => (z : ℚ)) (Int.ediv_add_emod num den)
  have hr0 : (0 : ℚ) ≤ ((num % den : Int) : ℚ) := by
    exact_mod_cast Int.emod_nonneg num (ne_of_gt hden)
  have hrd : ((num % den : Int) : ℚ) < (den : ℚ) := by
    exact_mod_cast Int.emod_lt_of_pos num hden
  have hrw : num - num / den * den = num % den := by
    rw [Int.emod_def]
    ring
  have hdiv : (num : ℚ) / den
      = ((num / den : Int) : ℚ) + ((num % den : Int) : ℚ) / den := by
    field_simp
    linarith [hsplit]
  rw [rheDiv, hrw]
  rcases lt_trichotomy (2 * (num % den)) den with h | h | h
  · rw [if_pos h]
    have hQ : 2 * ((num % den : Int) : ℚ) < (den : ℚ) := by exact_mod_cast h
    have habs : |((num / den : Int) : ℚ) - (num : ℚ) / den|
        = ((num % den : Int) : ℚ) / den := by
      rw [hdiv, abs_sub_comm, add_sub_cancel_left, abs_of_nonneg (div_nonneg hr0 hdQ.le)]
    constructor
    · rw [habs, div_le_iff₀ hdQ]
      linarith
    · intro htie
      exfalso
      rw [habs] at htie
      rw [div_eq_iff hdne] at htie
      linarith
  · rw [if_neg (by omega), if_neg (by omega)]
    have h2 : (2 : ℚ) * ((num % den : Int) : ℚ) = (den : ℚ) := by exact_mod_cast h
    have hhalf : ((num % den : Int) : ℚ) / den = 1 / 2 := by
      rw [div_eq_div_iff hdne two_ne_zero]
      linarith
    by_cases hf2 : num / den % 2 = 0
    · rw [if_pos hf2]
      have habs : |((num / den : Int) : ℚ) - (num : ℚ) / den| = 1 / 2 := by
        rw [hdiv, abs_sub_comm, add_sub_cancel_left, hhalf]
        norm_num
      exact ⟨le_of_eq habs, fun _ => hf2⟩
    · rw [if_neg hf2]
      have habs : |((num / den + 1 : Int) : ℚ) - (num : ℚ) / den| = 1 / 2 := by
        rw [hdiv, hhalf]
        push_cast
        rw [show ((num / den : Int) : ℚ) + 1 - (((num / den : Int) : ℚ) + 1 / 2)
          = 1 / 2 by ring]
        norm_num
      refine ⟨le_of_eq habs, fun _ => ?_⟩
      rcases Int.emod_two_eq (num / den) with he | he
      · exact absurd he hf2
      · omega
  · rw [if_neg (by omega), if_pos h]
    have hQ : (den : ℚ) < 2 * ((num % den : Int) : ℚ) := by exact_mod_cast h
    have hnn : (0 : ℚ) ≤ 1 - ((num % den : Int) : ℚ) / den := by
      have : ((num % den : Int) : ℚ) / den < 1 := (div_lt_one hdQ).mpr hrd
      linarith
    have habs : |((num / den + 1 : Int) : ℚ) - (num : ℚ) / den|
        = 1 - ((num % den : Int) : ℚ) / den := by
      rw [hdiv]
      push_cast
      rw [show ((num / den : Int) : ℚ) + 1
          - (((num / den : Int) : ℚ) + ((num % den : Int) : ℚ) / den)
          = 1 - ((num % den : Int) : ℚ) / den by ring]
      exact abs_of_nonneg hnn
    constructor
    · rw [habs]
      have hhalf2 : (1 : ℚ) / 2 ≤ ((num % den : Int) : ℚ) / den := by
        rw [div_le_div_iff₀ (by norm_num) hdQ]
        linarith
      linarith
    · intro htie
      exfalso
      rw [habs] at htie
      have : ((num % den : Int) : ℚ) / den = 1 / 2 := by linarith
      rw [div_eq_div_iff hdne two_ne_zero] at this
      linarith

theorem upperVerdict_ok {v : Option JVal} (h : safeVerdictVal v = true) :
    ∃ s, upperVerdict v = .ok s := by
  cases v with
  | none => exact ⟨"", rfl⟩
  | some x =>
    by_cases ht : pyTruthy x = true
    · simp only [safeVerdictVal, ht, Bool.not_true, Bool.false_or] at h
      cases x with
      | jstr s => exact ⟨upStr s, by simp [upperVerdict, ht]⟩
      | jnull => cases h
      | jbool b => cases h
      | jint n => cases h
      | jnum m e => cases h
      | jnan => cases h
      | jinf b => cases h
      | jarr xs => cases h
      | jobj kvs => cases h
    · have ht2 : pyTruthy x = false := by simpa using ht
      exact ⟨upStr "", by simp [upperVerdict, ht2]⟩

theorem extendAlts_ok {acc : List (String × List JVal)} {k : String} {vs : List JVal}
    (ha : altsOK acc) (hv : ∀ x ∈ vs, pyHashable x = true) :
    altsOK (extendAlts acc k vs) := by
  unfold extendAlts
  by_cases hc : acc.any (fun kv => kv.1 == k) = true
  · rw [if_pos hc]
    intro kv hkv x hx
    rcases List.mem_map.mp hkv with ⟨kv0, hkv0, heq⟩
    by_cases he : (kv0.1 == k) = true
    · rw [if_pos he] at heq
      rw [← heq] at hx
      rcases List.mem_append.mp hx with h1 | h1
      · exact ha kv0 hkv0 x h1
      · exact hv x h1
    · rw [if_neg he] at heq
      rw [← heq] at hx
      exact ha kv0 hkv0 x hx
  · rw [if_neg hc]
    intro kv hkv x hx
    rcases List.mem_append.mp hkv with h1 | h1
    · exact ha kv h1 x hx
    · have : kv = (k, vs) := by simpa using h1
      rw [this] at hx
      exact hv x hx

theorem foldAlts_ok (d : List (String × JVal))
    (hd : ∀ kv ∈ d, ∀ x ∈ altExt kv.2, pyHashable x = true) :
    ∀ acc, altsOK acc →
      altsOK (d.foldl (fun a kv => extendAlts a kv.1 (altExt kv.2)) acc) := by
  induction d with
  | nil => intro acc h; exact h
  | cons kv d ih =>
    intro acc hacc
    simp only [List.foldl_cons]
    exact ih (fun kv2 h2 => hd kv2 (List.mem_cons_of_mem _ h2)) _
      (extendAlts_ok hacc (hd kv (List.mem_cons_self _ _)))

theorem mergeRaw_ok (ds : List (List (String × JVal)))
    (h : ∀ d ∈ ds, ∀ kv ∈ d, ∀ x ∈ altExt kv.2, pyHashable x = true) :
    altsOK (mergeRaw ds) := by
  unfold mergeRaw
  suffices hgen : ∀ acc, altsOK acc →
      altsOK (ds.foldl (fun acc d =>
        d.foldl (fun a kv => extendAlts a kv.1 (altExt kv.2)) acc) acc) by
    exact hgen [] (fun kv hkv => absurd hkv (List.not_mem_nil kv))
  induction ds with
  | nil => intro acc hacc; exact hacc
  | cons d ds ih =>
    intro acc hacc
    simp only [List.foldl_cons]
    exact ih (fun d2 h2 => h d2 (List.mem_cons_of_mem _ h2)) _
      (foldAlts_ok d (h d (List.mem_cons_self _ _)) acc hacc)

theorem dedupAllE_ok {l : List (String × List JVal)} (h : altsOK l) :
    ∃ r, dedupAllE l = .ok r := by
  induction l with
  | nil => exact ⟨[], rfl⟩
  | cons kv rest ih =>
    have h1 : kv.2.all pyHashable = true :=
      List.all_eq_true.mpr (h kv (List.mem_cons_self _ _))
    obtain ⟨r, hr⟩ := ih (fun kv2 h2 => h kv2 (List.mem_cons_of_mem _ h2))
    refine ⟨(kv.1, dedupPy kv.2) :: r, ?_⟩
    simp [dedupAllE, fromkeysE, h1, hr]

namespace CritiqueAnalyzer

theorem safeCritique_verdict {t : String} (h : safeCritique t = true) :
    safeVerdictVal (jGet ((parse_json_block t).getD []) "final_verdict") = true := by
  unfold safeCritique at h
  cases hpb : parse_json_block t with
  | none => simp [hpb, jGet, safeVerdictVal]
  | some kvs =>
    rw [hpb] at h
    simp only [Bool.and_eq_true] at h
    simpa [hpb] using h.1.1

theorem safeCritique_alts {t : String} (h : safeCritique t = true) :
    ∀ kv ∈ asDict ((parse_json_block t).getD []) "forbidden_alternatives",
      ∀ x ∈ altExt kv.2, pyHashable x = true := by
  unfold safeCritique at h
  cases hpb : parse_json_block t with
  | none => simp [hpb, asDict, jGet]
  | some kvs =>
    rw [hpb] at h
    simp only [Bool.and_eq_true] at h
    intro kv hkv x hx
    have h2 := List.all_eq_true.mp h.1.2 kv (by simpa [hpb] using hkv)
    exact List.all_eq_true.mp h2 x hx

theorem parse_structured_ok {t : String}
    (hs : safeVerdictVal (jGet ((parse_json_block t).getD []) "final_verdict") = true) :
    ∃ p, parse_structured t = .ok p ∧
      p.forbidden_alternatives = asDict ((parse_json_block t).getD [])
        "forbidden_alternatives" := by
  obtain ⟨s, hsv⟩ := upperVerdict_ok hs
  simp only [parse_structured]
  rw [hsv]
  exact ⟨_, rfl, rfl⟩

theorem aggregator_total_core (items : List (String × String))
    (h : ∀ it ∈ items, safeCritique it.2 = true) :
    ∃ r, calculate_consensus items = .ok r := by
  have hparse : ∀ x ∈ (items.filter (fun it => keepText it.2)).map
      (fun it => parse_structured it.2), ∃ p, x = Except.ok p := by
    intro x hx
    rcases List.mem_map.mp hx with ⟨it, hit, rfl⟩
    obtain ⟨p, hp, _⟩ :=
      parse_structured_ok (safeCritique_verdict (h it (List.mem_of_mem_filter hit)))
    exact ⟨p, hp⟩
  have hseq := seqE_ok_of_all hparse
  have hps : ∀ p ∈ ((items.filter (fun it => keepText it.2)).map
      (fun it => parse_structured it.2)).filterMap exToOption,
      ∀ kv ∈ p.forbidden_alternatives, ∀ x ∈ altExt kv.2, pyHashable x = true := by
    intro p hp
    have hmem := seqE_ok_mem hseq hp
    rcases List.mem_map.mp hmem with ⟨it, hit, heq⟩
    have hsafe := h it (List.mem_of_mem_filter hit)
    obtain ⟨p2, hp2, halts⟩ := parse_structured_ok (safeCritique_verdict hsafe)
    have hpp : p2 = p := by
      rw [hp2] at heq
      cases heq
      rfl
    rw [← hpp, halts]
    exact safeCritique_alts hsafe
  have hok := mergeRaw_ok _ (by
    intro d hd
    rcases List.mem_map.mp hd with ⟨p, hp, rfl⟩
    exact hps p hp)
  obtain ⟨merged, hmg⟩ : ∃ r, dedupAllE (mergeRaw ((List.filterMap exToOption
      ((items.filter (fun it => keepText it.2)).map (fun it => parse_structured it.2))).map
      (fun p => p.forbidden_alternatives))) = .ok r := dedupAllE_ok hok
  simp only [calculate_consensus, parsedCritiques, hseq, hmg]
  exact ⟨_, rfl⟩

end CritiqueAnalyzer

/-! ### Auxiliary lemmas: permutation invariance -/


theorem seqE_perm_ok {β : Type} {m₁ m₂ : List (Except Unit β)} (hp : m₁.Perm m₂)
    {ps₁ ps₂ : List β} (h1 : seqE m₁ = .ok ps₁) (h2 : seqE m₂ = .ok ps₂) :
    ps₁.Perm ps₂ := by
  rcases seqE_cases m₁ with hall | herr
  · rw [seqE_ok_of_all hall] at h1
    cases h1
    rcases seqE_cases m₂ with hall2 | herr2
    · rw [seqE_ok_of_all hall2] at h2
      cases h2
      exact hp.filterMap exToOption
    · rw [seqE_error_of_mem herr2] at h2
      cases h2
  · rw [seqE_error_of_mem herr] at h1
    cases h1

theorem optAvg_perm {l₁ l₂ : List Int} (hp : l₁.Perm l₂) :
    (if l₁.isEmpty then (none : Option Int) else some (avgTenths l₁.sum l₁.length))
      = (if l₂.isEmpty then none else some (avgTenths l₂.sum l₂.length)) := by
  have hlen := hp.length_eq
  have hsum := hp.sum_eq
  have hemp : l₁.isEmpty = l₂.isEmpty := by
    cases l₁ <;> cases l₂ <;> simp_all
  rw [hemp, hsum, hlen]

namespace CritiqueAnalyzer

theorem parsedCritiques_perm_okC {l₁ l₂ : List (String × String)} (h : l₁.Perm l₂)
    {ps₁ ps₂ : List ParsedC} (h1 : parsedCritiques l₁ = .ok ps₁)
    (h2 : parsedCritiques l₂ = .ok ps₂) : ps₁.Perm ps₂ := by
  unfold parsedCritiques at h1 h2
  have hm : ((l₁.filter (fun it => keepText it.2)).map
        (fun it => parse_structured it.2)).Perm
      ((l₂.filter (fun it => keepText it.2)).map (fun it => parse_structured it.2)) :=
    (h.filter (fun it => keepText it.2)).map (fun it => parse_structured it.2)
  exact seqE_perm_ok hm h1 h2

theorem avgScore_perm {ps₁ ps₂ : List ParsedC} (hp : ps₁.Perm ps₂) :
    avgScore ps₁ = avgScore ps₂ := by
  unfold avgScore collectScores
  exact optAvg_perm (hp.filterMap (fun p => p.clinical_tone_score))

theorem mergeTriggers_perm {ps₁ ps₂ : List ParsedC} (hp : ps₁.Perm ps₂) :
    mergeTriggers ps₁ = mergeTriggers ps₂ := by
  unfold mergeTriggers
  apply sortedUniqInt_eq_of_mem_iff
  intro x
  simp only [List.mem_filterMap, List.mem_flatMap]
  constructor
  · rintro ⟨v, ⟨p, hp1, hv⟩, hx⟩
    exact ⟨v, ⟨p, hp.mem_iff.mp hp1, hv⟩, hx⟩
  · rintro ⟨v, ⟨p, hp1, hv⟩, hx⟩
    exact ⟨v, ⟨p, hp.mem_iff.mpr hp1, hv⟩, hx⟩

theorem calculate_consensus_ok_invC {l : List (String × String)} {r : ConsensusC}
    (h : calculate_consensus l = .ok r) :
    ∃ ps, parsedCritiques l = .ok ps ∧ r.avg_clinical_score = avgScore ps ∧
      r.consensus_verdict = resolveVerdict ps ∧ r.sentence_triggers = mergeTriggers ps := by
  unfold calculate_consensus at h
  cases hpc : parsedCritiques l with
  | error e =>
    rw [hpc] at h
    cases h
  | ok ps =>
    rw [hpc] at h
    cases hd : dedupAllE (mergeRaw (ps.map (fun p => p.forbidden_alternatives))) with
    | error e =>
      simp only [hd] at h
      cases h
    | ok m =>
      simp only [hd] at h
      cases h
      exact ⟨ps, rfl, rfl, rfl, rfl⟩

end CritiqueAnalyzer

namespace WritingAnalyzer

theorem parsedCritiques_perm_okW {l₁ l₂ : List (String × String)} (h : l₁.Perm l₂)
    {ps₁ ps₂ : List ParsedW} (h1 : parsedCritiques l₁ = .ok ps₁)
    (h2 : parsedCritiques l₂ = .ok ps₂) : ps₁.Perm ps₂ := by
  unfold parsedCritiques at h1 h2
  have hm : ((l₁.filter (fun it => keepText it.2)).map
        (fun it => parse_structured it.2)).Perm
      ((l₂.filter (fun it => keepText it.2)).map (fun it => parse_structured it.2)) :=
    (h.filter (fun it => keepText it.2)).map (fun it => parse_structured it.2)
  exact seqE_perm_ok hm h1 h2

theorem avgBy_perm (f : ParsedW → Option Int) {ps₁ ps₂ : List ParsedW} (hp : ps₁.Perm ps₂) :
    avgBy f ps₁ = avgBy f ps₂ := by
  unfold avgBy
  exact optAvg_perm (hp.filterMap f)

theorem mergeNouns_perm {ps₁ ps₂ : List ParsedW} (hp : ps₁.Perm ps₂) :
    mergeNouns ps₁ = mergeNouns ps₂ := by
  unfold mergeNouns
  apply sortedUniqStr_eq_of_mem_iff
  intro x
  simp only [List.mem_map, List.mem_flatMap]
  constructor
  · rintro ⟨v, ⟨p, hp1, hv⟩, hx⟩
    exact ⟨v, ⟨p, hp.mem_iff.mp hp1, hv⟩, hx⟩
  · rintro ⟨v, ⟨p, hp1, hv⟩, hx⟩
    exact ⟨v, ⟨p, hp.mem_iff.mpr hp1, hv⟩, hx⟩

theorem mergeWeakVerbs_perm {ps₁ ps₂ : List ParsedW} (hp : ps₁.Perm ps₂) :
    mergeWeakVerbs ps₁ = mergeWeakVerbs ps₂ := by
  unfold mergeWeakVerbs
  apply sortedUniqStr_eq_of_mem_iff
  intro x
  simp only [List.mem_map, List.mem_flatMap]
  constructor
  · rintro ⟨v, ⟨p, hp1, hv⟩, hx⟩
    exact ⟨v, ⟨p, hp.mem_iff.mp hp1, hv⟩, hx⟩
  · rintro ⟨v, ⟨p, hp1, hv⟩, hx⟩
    exact ⟨v, ⟨p, hp.mem_iff.mpr hp1, hv⟩, hx⟩

theorem mergePassive_perm {ps₁ ps₂ : List ParsedW} (hp : ps₁.Perm ps₂) :
    mergePassive ps₁ = mergePassive ps₂ := by
  unfold mergePassive
  apply sortedUniqInt_eq_of_mem_iff
  intro x
  simp only [List.mem_filterMap, List.mem_flatMap]
  constructor
  · rintro ⟨v, ⟨p, hp1, hv⟩, hx⟩
    exact ⟨v, ⟨p, hp.mem_iff.mp hp1, hv⟩, hx⟩
  · rintro ⟨v, ⟨p, hp1, hv⟩, hx⟩
    exact ⟨v, ⟨p, hp.mem_iff.mpr hp1, hv⟩, hx⟩

theorem calculate_consensus_ok_invW {l : List (String × String)} {r : ConsensusW}
    (h : calculate_consensus l = .ok r) :
    ∃ ps, parsedCritiques l = .ok ps ∧
      r.orwellian_clarity_score = avgBy (fun p => p.orwellian_clarity_score) ps ∧
      r.hitchensian_fire_score = avgBy (fun p => p.hitchensian_fire_score) ps ∧
      r.vivid_physicality_score = avgBy (fun p => p.vivid_physicality_score) ps ∧
      r.technical_execution_score = avgBy (fun p => p.technical_execution_score) ps ∧
      r.overall_score = overallScore ps ∧
      r.consensus_verdict = resolveVerdict ps ∧
      r.abstract_nouns = mergeNouns ps ∧
      r.passive_voice_sentences = mergePassive ps ∧
      r.weak_verbs = mergeWeakVerbs ps := by
  unfold calculate_consensus at h
  cases hpc : parsedCritiques l with
  | error e =>
    rw [hpc] at h
    cases h
  | ok ps =>
    rw [hpc] at h
    cases hd : dedupAllE (mergeRaw (ps.map (fun p => p.jargon_violations))) with
    | error e =>
      simp only [hd] at h
      cases h
    | ok m =>
      simp only [hd] at h
      cases h
      exact ⟨ps, rfl, rfl, rfl, rfl, rfl, rfl, rfl, rfl, rfl, rfl⟩

end WritingAnalyzer

/-! ### Spec-side verdict collection (vocabulary-validated), for comparison -/


theorem contains_cons_congr {x b : String} {X Y : List String}
    (h : X.contains b = Y.contains b) : (x :: X).contains b = (x :: Y).contains b := by
  rw [List.contains_cons, List.contains_cons, h]

theorem count_cons_congr {x b : String} {X Y : List String}
    (h : X.count b = Y.count b) : (x :: X).count b = (x :: Y).count b := by
  rw [List.count_cons, List.count_cons, h]

theorem contains_cons_skip {x b : String} {X Y : List String} (hx : x ≠ b)
    (h : X.contains b = Y.contains b) : (x :: X).contains b = Y.contains b := by
  rw [List.contains_cons, h]
  have hb : (b == x) = false := by
    simp only [beq_eq_false_iff_ne]
    exact fun he => hx he.symm
  rw [hb, Bool.false_or]

theorem count_cons_skip {x b : String} {X Y : List String} (hx : x ≠ b)
    (h : X.count b = Y.count b) : (x :: X).count b = Y.count b := by
  rw [List.count_cons, h]
  have hb : (x == b) = false := beq_eq_false_iff_ne.mpr hx
  rw [hb]
  simp

namespace CritiqueAnalyzer

theorem collectVerdicts_cons_neC {p : ParsedC} {ps : List ParsedC}
    (h0 : p.final_verdict ≠ "") :
    collectVerdicts (p :: ps) = p.final_verdict :: collectVerdicts ps := by
  simp only [collectVerdicts, List.filterMap_cons]
  rw [if_neg (by simpa using h0)]

theorem collectVerdicts_cons_eqC {p : ParsedC} {ps : List ParsedC}
    (h0 : p.final_verdict = "") :
    collectVerdicts (p :: ps) = collectVerdicts ps := by
  simp only [collectVerdicts, List.filterMap_cons]
  rw [if_pos (by simpa using h0)]

theorem specCollect_cons_posC {p : ParsedC} {ps : List ParsedC}
    (hv : ["CLEAR", "REVISE", "REJECT"].contains p.final_verdict = true) :
    specCollectVerdicts (p :: ps) = p.final_verdict :: specCollectVerdicts ps := by
  simp only [specCollectVerdicts, List.filterMap_cons]
  rw [if_pos hv]

theorem specCollect_cons_negC {p : ParsedC} {ps : List ParsedC}
    (hv : ¬ (["CLEAR", "REVISE", "REJECT"].contains p.final_verdict = true)) :
    specCollectVerdicts (p :: ps) = specCollectVerdicts ps := by
  simp only [specCollectVerdicts, List.filterMap_cons]
  rw [if_neg hv]

theorem collect_spec_keysC (ps : List ParsedC) :
    ((collectVerdicts ps).contains "REJECT"
      = (specCollectVerdicts ps).contains "REJECT") ∧
    ((collectVerdicts ps).count "CLEAR" = (specCollectVerdicts ps).count "CLEAR") := by
  induction ps with
  | nil => exact ⟨rfl, rfl⟩
  | cons p ps ih =>
    obtain ⟨ih1, ih3⟩ := ih
    by_cases h0 : p.final_verdict = ""
    · have hv : ¬ (["CLEAR", "REVISE", "REJECT"].contains p.final_verdict = true) := by
        rw [h0]
        simp
      rw [collectVerdicts_cons_eqC h0, specCollect_cons_negC hv]
      exact ⟨ih1, ih3⟩
    · by_cases hv : ["CLEAR", "REVISE", "REJECT"].contains p.final_verdict = true
      · rw [collectVerdicts_cons_neC h0, specCollect_cons_posC hv]
        exact ⟨contains_cons_congr ih1, count_cons_congr ih3⟩
      · have hr : p.final_verdict ≠ "REJECT" := by
          intro he
          rw [he] at hv
          simp at hv
        have hc : p.final_verdict ≠ "CLEAR" := by
          intro he
          rw [he] at hv
          simp at hv
        rw [collectVerdicts_cons_neC h0, specCollect_cons_negC hv]
        exact ⟨contains_cons_skip hr ih1, count_cons_skip hc ih3⟩

theorem resolveVerdict_eq_specC (ps : List ParsedC) :
    resolveVerdict ps = specResolveVerdict ps := by
  obtain ⟨h1, h3⟩ := collect_spec_keysC ps
  simp only [resolveVerdict, specResolveVerdict]
  rw [h1, h3]
  simp only [ite_self]

end CritiqueAnalyzer

namespace WritingAnalyzer

theorem collectVerdicts_cons_neW {p : ParsedW} {ps : List ParsedW} (h0 : p.verdict ≠ "") :
    collectVerdicts (p :: ps) = p.verdict :: collectVerdicts ps := by
  simp only [collectVerdicts, List.filterMap_cons]
  rw [if_neg (by simpa using h0)]

theorem collectVerdicts_cons_eqW {p : ParsedW} {ps : List ParsedW} (h0 : p.verdict = "") :
    collectVerdicts (p :: ps) = collectVerdicts ps := by
  simp only [collectVerdicts, List.filterMap_cons]
  rw [if_pos (by simpa using h0)]

theorem specCollect_cons_posW {p : ParsedW} {ps : List ParsedW}
    (hv : ["PUBLISH", "REVISE", "REWRITE"].contains p.verdict = true) :
    specCollectVerdicts (p :: ps) = p.verdict :: specCollectVerdicts ps := by
  simp only [specCollectVerdicts, List.filterMap_cons]
  rw [if_pos hv]

theorem specCollect_cons_negW {p : ParsedW} {ps : List ParsedW}
    (hv : ¬ (["PUBLISH", "REVISE", "REWRITE"].contains p.verdict = true)) :
    specCollectVerdicts (p :: ps) = specCollectVerdicts ps := by
  simp only [specCollectVerdicts, List.filterMap_cons]
  rw [if_neg hv]

theorem collect_spec_keysW (ps : List ParsedW) :
    ((collectVerdicts ps).contains "REWRITE"
      = (specCollectVerdicts ps).contains "REWRITE") ∧
    ((collectVerdicts ps).count "PUBLISH" = (specCollectVerdicts ps).count "PUBLISH") := by
  induction ps with
  | nil => exact ⟨rfl, rfl⟩
  | cons p ps ih =>
    obtain ⟨ih1, ih2⟩ := ih
    by_cases h0 : p.verdict = ""
    · have hv : ¬ (["PUBLISH", "REVISE", "REWRITE"].contains p.verdict = true) := by
        rw [h0]
        simp
      rw [collectVerdicts_cons_eqW h0, specCollect_cons_negW hv]
      exact ⟨ih1, ih2⟩
    · by_cases hv : ["PUBLISH", "REVISE", "REWRITE"].contains p.verdict = true
      · rw [collectVerdicts_cons_neW h0, specCollect_cons_posW hv]
        exact ⟨contains_cons_congr ih1, count_cons_congr ih2⟩
      · have hr : p.verdict ≠ "REWRITE" := by
          intro he
          rw [he] at hv
          simp at hv
        have hc : p.verdict ≠ "PUBLISH" := by
          intro he
          rw [he] at hv
          simp at hv
        rw [collectVerdicts_cons_neW h0, specCollect_cons_negW hv]
        exact ⟨contains_cons_skip hr ih1, count_cons_skip hc ih2⟩

theorem resolveVerdict_eq_specW (ps : List ParsedW) :
    resolveVerdict ps = specResolveVerdict ps := by
  obtain ⟨h1, h2⟩ := collect_spec_keysW ps
  simp only [resolveVerdict, specResolveVerdict]
  rw [h1, h2]
  simp only [ite_self]

end WritingAnalyzer

/-! ### Helper facts about the verdict resolution, shared by several claims -/

theorem resolveVerdict_of_reject_mem {ps : List CritiqueAnalyzer.ParsedC}
    (h : "REJECT" ∈ CritiqueAnalyzer.collectVerdicts ps) :
    CritiqueAnalyzer.resolveVerdict ps = "REJECT" := by
  have hc : (CritiqueAnalyzer.collectVerdicts ps).contains "REJECT" = true := by
    simpa using h
  simp only [CritiqueAnalyzer.resolveVerdict, hc]
  rfl

theorem resolveVerdictW_of_rewrite_mem {ps : List WritingAnalyzer.ParsedW}
    (h : "REWRITE" ∈ WritingAnalyzer.collectVerdicts ps) :
    WritingAnalyzer.resolveVerdict ps = "REWRITE" := by
  have hc : (WritingAnalyzer.collectVerdicts ps).contains "REWRITE" = true := by
    simpa using h
  simp only [WritingAnalyzer.resolveVerdict, hc]
  rfl

theorem resolveVerdict_reject_of_flags {ps : List CritiqueAnalyzer.ParsedC}
    (hnr : "REJECT" ∉ CritiqueAnalyzer.collectVerdicts ps)
    (h2 : 2 ≤ ps.countP CritiqueAnalyzer.redFlagWeapon ∨
      2 ≤ ps.countP CritiqueAnalyzer.redFlagEngine) :
    CritiqueAnalyzer.resolveVerdict ps = "REJECT" := by
  have hc : (CritiqueAnalyzer.collectVerdicts ps).contains "REJECT" = false := by
    simpa using hnr
  simp only [CritiqueAnalyzer.resolveVerdict, hc]
  rw [if_neg (by simp), if_pos h2]

theorem avgScore_half_even (ps : List CritiqueAnalyzer.ParsedC) :
    (CritiqueAnalyzer.avgScore ps = none ↔ CritiqueAnalyzer.collectScores ps = []) ∧
    ∀ a, CritiqueAnalyzer.avgScore ps = some a →
      |(a : ℚ) / 10 - ((CritiqueAnalyzer.collectScores ps).sum : ℚ)
          / ((CritiqueAnalyzer.collectScores ps).length : ℚ)| ≤ 1 / 20 ∧
      (|(a : ℚ) / 10 - ((CritiqueAnalyzer.collectScores ps).sum : ℚ)
          / ((CritiqueAnalyzer.collectScores ps).length : ℚ)| = 1 / 20 → a % 2 = 0) := by
  constructor
  · unfold CritiqueAnalyzer.avgScore
    cases hsc : CritiqueAnalyzer.collectScores ps with
    | nil => simp
    | cons x xs => simp
  · intro a ha
    unfold CritiqueAnalyzer.avgScore at ha
    cases hsc : CritiqueAnalyzer.collectScores ps with
    | nil =>
      rw [hsc] at ha
      simp at ha
    | cons x xs =>
      rw [hsc] at ha
      have ha2 : avgTenths (x :: xs).sum (x :: xs).length = a := by
        simpa using ha
      have hlen : (0 : Int) < ((x :: xs).length : Int) := by
        exact_mod_cast Nat.succ_pos xs.length
      obtain ⟨hb, ht⟩ := @rheDiv_char (10 * (x :: xs).sum) ((x :: xs).length : Int) hlen
      rw [avgTenths] at ha2
      rw [← ha2]
      have hlq : (0 : ℚ) < (((x :: xs).length : Nat) : ℚ) := by
        exact_mod_cast Nat.succ_pos xs.length
      have hnz : (((x :: xs).length : Nat) : ℚ) ≠ 0 := ne_of_gt hlq
      have hc1 : ((10 * (x :: xs).sum : Int) : ℚ) = 10 * (((x :: xs).sum : Int) : ℚ) := by
        push_cast
        ring
      have hc2 : ((((x :: xs).length : Int)) : ℚ) = (((x :: xs).length : Nat) : ℚ) := by
        push_cast
        ring
      rw [hc1, hc2] at hb ht
      set A : ℚ := ((rheDiv (10 * (x :: xs).sum) ((x :: xs).length : Int) : Int) : ℚ) with hA
      set S : ℚ := (((x :: xs).sum : Int) : ℚ) with hS
      set N : ℚ := (((x :: xs).length : Nat) : ℚ) with hN
      have hkey : A / 10 - S / N = (A - 10 * S / N) / 10 := by
        field_simp
        exact Or.inl (by ring)
      constructor
      · rw [hkey, abs_div, show |(10 : ℚ)| = 10 by norm_num,
          div_le_iff₀ (by norm_num : (0 : ℚ) < 10)]
        calc |A - 10 * S / N| ≤ 1 / 2 := hb
        _ = 1 / 20 * 10 := by norm_num
      · intro htie
        apply ht
        rw [hkey, abs_div, show |(10 : ℚ)| = 10 by norm_num] at htie
        linarith [htie]

/-! ### The claims -/

/-- C1, counterexample: the aggregator's public contract is *not* total.  On
a critique whose JSON `final_verdict` field is the number 5, the expression
`(parsed.get('final_verdict') or '').upper()` in `parse_structured` raises
`AttributeError`, and `calculate_consensus` propagates it instead of
returning a result. -/
theorem claim1_counterexample :
    (CritiqueAnalyzer.calculate_consensus [("claude", "\x7b\"final_verdict\": 5\x7d")]).map
      (fun r => r.consensus_verdict) = .error () := rfl

/-- C1, amended: `calculate_consensus` always returns a result for every
mapping from critic identity to raw text whose critiques are benign — empty
strings, arbitrary non-JSON prose, and JSON objects whose `final_verdict` is
absent, falsy or a string, whose `forbidden_alternatives` contributions are
hashable, and whose `clinical_tone_score` has bounded magnitude
(`safeCritique`). -/
theorem claim1_total_on_benign_inputs (items : List (String × String))
    (h : ∀ it ∈ items, CritiqueAnalyzer.safeCritique it.2 = true) :
    ∃ r, CritiqueAnalyzer.calculate_consensus items = .ok r :=
  CritiqueAnalyzer.aggregator_total_core items h

/-- Witness for C1's amended totality theorem at a concrete mapping that
contains an empty string, prose and a well-formed JSON critique. -/
theorem claim1_witness :
    (∀ it ∈ ([("claude", ""), ("gpt", "The piece is weak prose, not JSON."),
        ("gemini", "\x7b\"final_verdict\": \"CLEAR\", \"clinical_tone_score\": 80\x7d")] :
        List (String × String)), CritiqueAnalyzer.safeCritique it.2 = true) ∧
    ∃ r, CritiqueAnalyzer.calculate_consensus
      [("claude", ""), ("gpt", "The piece is weak prose, not JSON."),
       ("gemini", "\x7b\"final_verdict\": \"CLEAR\", \"clinical_tone_score\": 80\x7d")]
      = .ok r :=
  ⟨by decide, claim1_total_on_benign_inputs _ (by decide)⟩

/-- C2, the code evaluated at the failing input: an out-of-range
`clinical_tone_score` of 150 is kept verbatim by `parse_structured` (the
structured path's `as_int` has no `[0, 100]` check, unlike the legacy
`extract_clinical_score`) and enters the consensus average, which becomes
`Decimal('150.0')` — not the absence the claim and §4.2 of the spec
require. -/
theorem claim2_out_of_range_kept :
    (CritiqueAnalyzer.parse_structured "\x7b\"clinical_tone_score\": 150\x7d").map
      (fun p => p.clinical_tone_score) = .ok (some 150) ∧
    (CritiqueAnalyzer.calculate_consensus
      [("claude", "\x7b\"clinical_tone_score\": 150\x7d")]).map
      (fun r => r.avg_clinical_score) = .ok (some 1500) :=
  ⟨rfl, rfl⟩

/-- C3, counterexample: `parse_structured` does *not* validate the verdict
against the closed vocabulary: `\x7b"final_verdict": "banana"\x7d` normalizes to
`"BANANA"` (not to the empty string) and *is* counted among the collected
verdicts. -/
theorem claim3_counterexample :
    (CritiqueAnalyzer.parse_structured "\x7b\"final_verdict\": \"banana\"\x7d").map
      (fun p => (p.final_verdict, CritiqueAnalyzer.collectVerdicts [p]))
      = .ok ("BANANA", ["BANANA"]) := rfl

/-- C3, amended: `parse_structured` merely uppercases the verdict; the
vocabulary check only exists in `extract_verdict`, which the consensus does
not use.  A non-vocabulary verdict is collected, but since it matches no
vocabulary label the consensus verdict is unchanged: the resolution equals
the one computed from only the vocabulary-validated verdicts, in both
rubric instances. -/
theorem claim3_invalid_verdicts_never_change_consensus :
    ∀ (psC : List CritiqueAnalyzer.ParsedC) (psW : List WritingAnalyzer.ParsedW),
      CritiqueAnalyzer.resolveVerdict psC = CritiqueAnalyzer.specResolveVerdict psC ∧
      WritingAnalyzer.resolveVerdict psW = WritingAnalyzer.specResolveVerdict psW :=
  fun psC psW => ⟨CritiqueAnalyzer.resolveVerdict_eq_specC psC,
    WritingAnalyzer.resolveVerdict_eq_specW psW⟩

/-- C4, the code evaluated at the failing input: the indicator-count
heuristic compares lowercase indicator words against the *uppercased* text,
so the counts are always zero and the heuristic returns REVISE even for a
prose text that contains all four reject-class indicators (second conjunct:
counted case-insensitively, all four are present). -/
theorem claim4_keyword_heuristic_never_fires :
    CritiqueAnalyzer.extract_verdict "reject fail unacceptable do not publish"
      = .ok "REVISE" ∧
    (["reject", "fail", "unacceptable", "do not publish"].filter
      (fun t => strIn t (lowStr "reject fail unacceptable do not publish"))).length = 4 :=
  ⟨rfl, rfl⟩

set_option maxRecDepth 100000 in
/-- C5, the code evaluated at the failing input: with all four constituent
averages present but the clarity average equal to `Decimal('0.0')`, the
guard `if avg_clarity and avg_fire and ...` treats the zero average as
missing and the overall weighted score is absent — though the claim (and
§4.2's "zero is a valid low score") requires it to be computed. -/
theorem claim5_zero_average_suppresses_overall :
    (WritingAnalyzer.calculate_consensus
      [("claude", "\x7b\"orwellian_clarity_score\": 0, \"hitchensian_fire_score\": 50, \"vivid_physicality_score\": 50, \"technical_execution_score\": 50\x7d")]).map
      (fun r => (r.orwellian_clarity_score, r.overall_score)) = .ok (some 0, none) ∧
    (WritingAnalyzer.calculate_consensus
      [("claude", "\x7b\"orwellian_clarity_score\": 0, \"hitchensian_fire_score\": 50, \"vivid_physicality_score\": 50, \"technical_execution_score\": 50\x7d")]).map
      (fun r => (r.hitchensian_fire_score, r.vivid_physicality_score,
        r.technical_execution_score)) = .ok (some 500, some 500, some 500) := by
  constructor
  · rfl
  · rfl

/-- C6, veto rule: in either rubric instance, if any one non-excluded
critic's collected verdict is the rubric's worst severity (REJECT for the
clinical rubric, REWRITE for the writing rubric), the consensus verdict is
that worst severity, regardless of every other critic's verdicts and
scores. -/
theorem claim6_worst_verdict_veto :
    ∀ (psC : List CritiqueAnalyzer.ParsedC) (psW : List WritingAnalyzer.ParsedW),
      ("REJECT" ∈ CritiqueAnalyzer.collectVerdicts psC →
        CritiqueAnalyzer.resolveVerdict psC = "REJECT") ∧
      ("REWRITE" ∈ WritingAnalyzer.collectVerdicts psW →
        WritingAnalyzer.resolveVerdict psW = "REWRITE") :=
  fun _ _ => ⟨resolveVerdict_of_reject_mem, resolveVerdictW_of_rewrite_mem⟩

/-- Witness for C6 with one worst-severity critic and two best-severity
critics in each rubric instance. -/
theorem claim6_witness :
    CritiqueAnalyzer.resolveVerdict [{ blankC with final_verdict := "REJECT" },
      { blankC with final_verdict := "CLEAR" }, { blankC with final_verdict := "CLEAR" }]
      = "REJECT" ∧
    WritingAnalyzer.resolveVerdict [{ blankW with verdict := "REWRITE" },
      { blankW with verdict := "PUBLISH" }, { blankW with verdict := "PUBLISH" }]
      = "REWRITE" :=
  ⟨(claim6_worst_verdict_veto [{ blankC with final_verdict := "REJECT" },
      { blankC with final_verdict := "CLEAR" }, { blankC with final_verdict := "CLEAR" }]
      []).1 (by decide),
   (claim6_worst_verdict_veto [] [{ blankW with verdict := "REWRITE" },
      { blankW with verdict := "PUBLISH" }, { blankW with verdict := "PUBLISH" }]).2
      (by decide)⟩

/-- C7, red-flag escalation (clinical instance): when no critic explicitly
voted REJECT, if two or more critics trip the venom-without-substance
condition (`value_density < 40` and `verdict_output_score > 70`), or two or
more trip the low-value/weak-engine condition (`value_density < 30` and
`physics_engine_score < 40`), the consensus verdict is REJECT without any
explicit worst-severity verdict label. -/
theorem claim7_red_flag_escalation (ps : List CritiqueAnalyzer.ParsedC)
    (hnr : "REJECT" ∉ CritiqueAnalyzer.collectVerdicts ps)
    (h2 : 2 ≤ ps.countP CritiqueAnalyzer.redFlagWeapon ∨
      2 ≤ ps.countP CritiqueAnalyzer.redFlagEngine) :
    CritiqueAnalyzer.resolveVerdict ps = "REJECT" :=
  resolveVerdict_reject_of_flags hnr h2

/-- Witness for C7: two critics each tripping the venom-without-substance
condition, both voting REVISE, force REJECT. -/
theorem claim7_witness :
    ("REJECT" ∉ CritiqueAnalyzer.collectVerdicts [venomC, venomC] ∧
      2 ≤ List.countP CritiqueAnalyzer.redFlagWeapon [venomC, venomC]) ∧
    CritiqueAnalyzer.resolveVerdict [venomC, venomC] = "REJECT" :=
  ⟨⟨by decide, by decide⟩,
   claim7_red_flag_escalation [venomC, venomC] (by decide) (Or.inl (by decide))⟩

set_option maxRecDepth 400000 in
/-- C8, counterexample: the per-field average is quantized with the
`decimal` default ROUND_HALF_EVEN, not round-half-away-from-zero: the
contributed scores 70, 70, 70, 71 average to `Decimal('70.2')` (702
tenths), not the `70.3` (703 tenths) the claim requires. -/
theorem claim8_counterexample :
    (CritiqueAnalyzer.calculate_consensus tieItems).map (fun r => r.avg_clinical_score)
      = .ok (some 702) ∧ (702 : Int) ≠ 703 :=
  ⟨rfl, by decide⟩

/-- C8, amended: each per-field average returned by `calculate_consensus` is
the arithmetic mean of exactly the scores contributed by critics whose
normalized record has the field, quantized to one decimal place with
round-half-EVEN (ties land on the even tenth); with no contributions the
average is absent.  `a` is the average in tenths; the bound `≤ 1/20` plus
the parity of ties pins the rounding down exactly.  (The CPython float
division `sum/len` is modelled as exact; the two agree whenever the
quotient is a representable double, as at the witness and counterexample.) -/
theorem claim8_half_even_average (items : List (String × String))
    (ps : List CritiqueAnalyzer.ParsedC) (r : CritiqueAnalyzer.ConsensusC)
    (hps : CritiqueAnalyzer.parsedCritiques items = .ok ps)
    (hr : CritiqueAnalyzer.calculate_consensus items = .ok r) :
    (r.avg_clinical_score = none ↔ CritiqueAnalyzer.collectScores ps = []) ∧
    ∀ a, r.avg_clinical_score = some a →
      |(a : ℚ) / 10 - ((CritiqueAnalyzer.collectScores ps).sum : ℚ)
          / ((CritiqueAnalyzer.collectScores ps).length : ℚ)| ≤ 1 / 20 ∧
      (|(a : ℚ) / 10 - ((CritiqueAnalyzer.collectScores ps).sum : ℚ)
          / ((CritiqueAnalyzer.collectScores ps).length : ℚ)| = 1 / 20 → a % 2 = 0) := by
  obtain ⟨ps2, hps2, havg, _, _⟩ := CritiqueAnalyzer.calculate_consensus_ok_invC hr
  rw [hps] at hps2
  injection hps2 with he
  subst he
  rw [havg]
  exact avgScore_half_even ps

set_option maxRecDepth 400000 in
/-- Witness for C8's amended theorem at the tie input 70, 70, 70, 71. -/
theorem claim8_witness :
    (tieRes.avg_clinical_score = none ↔ CritiqueAnalyzer.collectScores tiePs = []) ∧
    ∀ a, tieRes.avg_clinical_score = some a →
      |(a : ℚ) / 10 - ((CritiqueAnalyzer.collectScores tiePs).sum : ℚ)
          / ((CritiqueAnalyzer.collectScores tiePs).length : ℚ)| ≤ 1 / 20 ∧
      (|(a : ℚ) / 10 - ((CritiqueAnalyzer.collectScores tiePs).sum : ℚ)
          / ((CritiqueAnalyzer.collectScores tiePs).length : ℚ)| = 1 / 20 → a % 2 = 0) :=
  claim8_half_even_average tieItems tiePs tieRes rfl rfl

/-- C9, permutation invariance: permuting the input mapping's entry order
changes neither the averaged numeric fields nor the set-merged qualitative
fields (lowercased-sorted term sets, sorted integer index sets) of either
aggregator instance; first-match-wins fields are deliberately not
constrained. -/
theorem claim9_permutation_invariance (l₁ l₂ : List (String × String)) (hp : l₁.Perm l₂)
    (rc₁ rc₂ : CritiqueAnalyzer.ConsensusC) (rw₁ rw₂ : WritingAnalyzer.ConsensusW)
    (hc1 : CritiqueAnalyzer.calculate_consensus l₁ = .ok rc₁)
    (hc2 : CritiqueAnalyzer.calculate_consensus l₂ = .ok rc₂)
    (hw1 : WritingAnalyzer.calculate_consensus l₁ = .ok rw₁)
    (hw2 : WritingAnalyzer.calculate_consensus l₂ = .ok rw₂) :
    (rc₁.avg_clinical_score = rc₂.avg_clinical_score ∧
      rc₁.sentence_triggers = rc₂.sentence_triggers) ∧
    (rw₁.orwellian_clarity_score = rw₂.orwellian_clarity_score ∧
      rw₁.hitchensian_fire_score = rw₂.hitchensian_fire_score ∧
      rw₁.vivid_physicality_score = rw₂.vivid_physicality_score ∧
      rw₁.technical_execution_score = rw₂.technical_execution_score ∧
      rw₁.abstract_nouns = rw₂.abstract_nouns ∧
      rw₁.passive_voice_sentences = rw₂.passive_voice_sentences ∧
      rw₁.weak_verbs = rw₂.weak_verbs) := by
  obtain ⟨ps1, hps1, ha1, _, ht1⟩ := CritiqueAnalyzer.calculate_consensus_ok_invC hc1
  obtain ⟨ps2, hps2, ha2, _, ht2⟩ := CritiqueAnalyzer.calculate_consensus_ok_invC hc2
  have hpp := CritiqueAnalyzer.parsedCritiques_perm_okC hp hps1 hps2
  obtain ⟨qs1, hqs1, hb1, hb2, hb3, hb4, _, _, hn1, hv1, hw1x⟩ :=
    WritingAnalyzer.calculate_consensus_ok_invW hw1
  obtain ⟨qs2, hqs2, hd1, hd2, hd3, hd4, _, _, hn2, hv2, hw2x⟩ :=
    WritingAnalyzer.calculate_consensus_ok_invW hw2
  have hqq := WritingAnalyzer.parsedCritiques_perm_okW hp hqs1 hqs2
  refine ⟨⟨?_, ?_⟩, ?_, ?_, ?_, ?_, ?_, ?_, ?_⟩
  · rw [ha1, ha2]
    exact CritiqueAnalyzer.avgScore_perm hpp
  · rw [ht1, ht2]
    exact CritiqueAnalyzer.mergeTriggers_perm hpp
  · rw [hb1, hd1]
    exact WritingAnalyzer.avgBy_perm _ hqq
  · rw [hb2, hd2]
    exact WritingAnalyzer.avgBy_perm _ hqq
  · rw [hb3, hd3]
    exact WritingAnalyzer.avgBy_perm _ hqq
  · rw [hb4, hd4]
    exact WritingAnalyzer.avgBy_perm _ hqq
  · rw [hn1, hn2]
    exact WritingAnalyzer.mergeNouns_perm hqq
  · rw [hv1, hv2]
    exact WritingAnalyzer.mergePassive_perm hqq
  · rw [hw1x, hw2x]
    exact WritingAnalyzer.mergeWeakVerbs_perm hqq

set_option maxRecDepth 400000 in
/-- Witness for C9 at two concrete orders of the same two critiques; note
the two clinical results differ in their first-match-wins artifact while
every compared field agrees. -/
theorem claim9_witness :
    (permResC1.avg_clinical_score = permResC2.avg_clinical_score ∧
      permResC1.sentence_triggers = permResC2.sentence_triggers) ∧
    (permResW.orwellian_clarity_score = permResW.orwellian_clarity_score ∧
      permResW.hitchensian_fire_score = permResW.hitchensian_fire_score ∧
      permResW.vivid_physicality_score = permResW.vivid_physicality_score ∧
      permResW.technical_execution_score = permResW.technical_execution_score ∧
      permResW.abstract_nouns = permResW.abstract_nouns ∧
      permResW.passive_voice_sentences = permResW.passive_voice_sentences ∧
      permResW.weak_verbs = permResW.weak_verbs) :=
  claim9_permutation_invariance permItemsA permItemsB (by decide)
    permResC1 permResC2 permResW permResW rfl rfl rfl rfl

/-- C10, implicit: in the red-flag evaluation, `x or 0` defaults an
unreported auxiliary score to 0, so a critic whose JSON omits
`value_density` entirely while reporting `verdict_output_score > 70` trips
the venom-without-substance flag, and two such critics (with no explicit
REJECT from anyone) force the consensus verdict to REJECT. -/
theorem claim10_missing_density_counts_as_zero :
    ∀ ps : List CritiqueAnalyzer.ParsedC,
      (∀ p ∈ ps, p.value_density = none → 70 < p.verdict_output_score.getD 0 →
        CritiqueAnalyzer.redFlagWeapon p = true) ∧
      ("REJECT" ∉ CritiqueAnalyzer.collectVerdicts ps →
        2 ≤ ps.countP (fun p => p.value_density == none &&
          decide (70 < p.verdict_output_score.getD 0)) →
        CritiqueAnalyzer.resolveVerdict ps = "REJECT") := by
  intro ps
  have hflag : ∀ p : CritiqueAnalyzer.ParsedC, p.value_density = none →
      70 < p.verdict_output_score.getD 0 → CritiqueAnalyzer.redFlagWeapon p = true := by
    intro p hv hw
    unfold CritiqueAnalyzer.redFlagWeapon
    rw [hv]
    simp [hw]
  refine ⟨fun p _ => hflag p, fun hnr h2 => ?_⟩
  refine resolveVerdict_reject_of_flags hnr (Or.inl ?_)
  calc (2 : Nat) ≤ ps.countP (fun p => p.value_density == none &&
      decide (70 < p.verdict_output_score.getD 0)) := h2
  _ ≤ ps.countP CritiqueAnalyzer.redFlagWeapon := by
      apply List.countP_mono_left
      intro p _ hp
      simp only [Bool.and_eq_true, beq_iff_eq, decide_eq_true_eq] at hp
      exact hflag p hp.1 hp.2

/-- Witness for C10: one flag evaluation at a record omitting
`value_density`, and the forced REJECT with two such critics. -/
theorem claim10_witness :
    CritiqueAnalyzer.redFlagWeapon venomNoDensityC = true ∧
    CritiqueAnalyzer.resolveVerdict [venomNoDensityC, venomNoDensityC] = "REJECT" := by
  obtain ⟨h1, h2⟩ := claim10_missing_density_counts_as_zero [venomNoDensityC, venomNoDensityC]
  exact ⟨h1 venomNoDensityC (List.mem_cons_self _ _) rfl (by decide),
    h2 (by decide) (by decide)⟩

/-- The decoder accepts Python's `NaN`/`Infinity`/`-Infinity` literal
extension of JSON. -/
example :
    loads "\x7b\"a\": NaN, \"b\": -Infinity, \"c\": Infinity\x7d" =
      some (.jobj [("a", .jnan), ("b", .jinf true), ("c", .jinf false)]) := rfl

/-- A NaN verdict is truthy and not a string, so the aggregator raises on
it exactly as CPython does — and such a critique is accordingly not
benign, keeping it outside the totality theorem's coverage. -/
example :
    (CritiqueAnalyzer.calculate_consensus
        [("claude", "\x7b\"final_verdict\": NaN\x7d")]).map
      (fun r => r.consensus_verdict) = .error () ∧
    CritiqueAnalyzer.safeCritique "\x7b\"final_verdict\": NaN\x7d" = false :=
  ⟨rfl, rfl⟩
